import Mathlib

/-!
# DuckDB: bound function expressions, `random`, timestamps, prepared statements
and the benchmark runner

A shallow embedding of the planner's foldability rule, the `random` function,
timestamp parsing and `age`, the catalog's dependency policy, parameter typing
and execution of prepared statements, and the benchmark runner's command line,
followed by the theorems proved about them.

Definitions come first (one section per source file), theorems afterwards.
-/

namespace DuckDB

/-! ## Types shared by the planner and the executor -/

/-- Physical type tag of a vector or bound expression (`TypeId`). -/
inductive TypeId
  | BOOLEAN | TINYINT | SMALLINT | INTEGER | BIGINT | FLOAT | DOUBLE | VARCHAR
  deriving DecidableEq, Repr

/-- Logical SQL type (`SQLType`), the variants listed in the data model. -/
inductive SQLType
  | BOOLEAN | TINYINT | SMALLINT | INTEGER | BIGINT | REAL | DOUBLE
  | DATE | TIMESTAMP | VARCHAR | BLOB
  deriving DecidableEq, Repr

/-- A scalar function as handed to `BuiltinFunctions::AddFunction`: the
constructor arguments of `ScalarFunction(name, arguments, return_type, function,
has_side_effects, bind)`. The two function pointers are kept as the names of
the functions they point to. -/
structure ScalarFunction where
  name : String
  arguments : List SQLType
  return_type : SQLType
  function : String
  has_side_effects : Bool
  bind : Option String
  deriving DecidableEq, Repr

/-! ## src/planner/expression/bound_function_expression.cpp -/

/-- A bound expression tree. `bound_function` is a `BoundFunctionExpression`
(constructor arguments `return_type`, `bound_function`, `is_operator`, and
the `children` vector). `other` is an expression of any other class: the
`IsFoldable` override of such a class is not part of the sources at hand, so
the node carries the value its own `IsFoldable()` returns; `id` tells which
expression of another class it is. -/
inductive Expression
  | bound_function (return_type : TypeId) (function : ScalarFunction)
      (is_operator : Bool) (children : List Expression)
  | other (is_foldable : Bool) (id : Nat)
  deriving Repr

mutual
/-- Virtual call `e.IsFoldable()`. On a `BoundFunctionExpression` this is
`function.has_side_effects ? false : Expression::IsFoldable()`. -/
def BoundFunctionExpression.IsFoldable : Expression → Bool
  | .bound_function _ function _ children =>
      if function.has_side_effects then false else Expression.IsFoldable children
  | .other is_foldable _ => is_foldable
/-- Modelled from the spec: the base-class `Expression::IsFoldable`, whose body
is not among the sources. "An expression is foldable iff all children are
foldable": the base result is the conjunction of the children's `IsFoldable()`.
It takes the `children` vector of the expression it is called on. -/
def Expression.IsFoldable : List Expression → Bool
  | [] => true
  | child :: rest => BoundFunctionExpression.IsFoldable child && Expression.IsFoldable rest
end

mutual
/-- Whether the tree holds, at any depth, a bound function expression whose
function declares side effects. -/
def Expression.hasSideEffectCall : Expression → Bool
  | .bound_function _ function _ children =>
      function.has_side_effects || Expression.anyHasSideEffectCall children
  | .other _ _ => false
/-- Whether some expression of the list holds a call with side effects. -/
def Expression.anyHasSideEffectCall : List Expression → Bool
  | [] => false
  | child :: rest => Expression.hasSideEffectCall child || Expression.anyHasSideEffectCall rest
end

mutual
/-- Whether the tree holds, at any depth, a call to the function `f`. -/
def Expression.calls (f : ScalarFunction) : Expression → Bool
  | .bound_function _ function _ children =>
      decide (function = f) || Expression.anyCalls f children
  | .other _ _ => false
/-- Whether some expression of the list holds a call to `f`. -/
def Expression.anyCalls (f : ScalarFunction) : List Expression → Bool
  | [] => false
  | child :: rest => Expression.calls f child || Expression.anyCalls f rest
end

/-! ## src/function/scalar/math/random.cpp -/

/-- The function that `Random::RegisterFunction` adds to the builtin set:
`ScalarFunction("random", { }, SQLType::DOUBLE, random_function, true, random_bind)`. -/
def Random.RegisterFunction : ScalarFunction :=
  { name := "random", arguments := [], return_type := SQLType.DOUBLE,
    function := "random_function", has_side_effects := true, bind := some "random_bind" }

/-- The function `+` on doubles, without side effects, used in examples. -/
def exampleAdd : ScalarFunction :=
  { name := "+", arguments := [SQLType.DOUBLE, SQLType.DOUBLE], return_type := SQLType.DOUBLE,
    function := "add_function", has_side_effects := false, bind := none }

/-- The tree `1 + (random() + 2)` with foldable constant leaves. -/
def exampleRandomTree : Expression :=
  .bound_function TypeId.DOUBLE exampleAdd true
    [.other true 1,
     .bound_function TypeId.DOUBLE exampleAdd true
       [.bound_function TypeId.DOUBLE Random.RegisterFunction false [], .other true 2]]

/-! ## Vectors, chunks and `VectorOperations::Exec` -/

/-- A column buffer: physical type, count, optional selection vector and the
data buffer. A selection vector is a `sel_t *`, read at index `k`; the buffer
is read and written by position, and a position that has not been written
holds `none`. -/
structure Vector (α : Type) where
  type : TypeId
  count : Nat
  sel_vector : Option (Nat → Nat)
  data : Nat → Option α

/-- A data chunk as `random_function` sees it: `size()` and `sel_vector`. -/
structure DataChunk where
  size : Nat
  sel_vector : Option (Nat → Nat)

/-- The expression executor: `chunk` is a possibly null pointer to the chunk
being evaluated. -/
structure ExpressionExecutor where
  chunk : Option DataChunk

/-- Modelled from the spec: `Vector::Initialize(type)`, declared outside the
sources at hand. It sets the physical type and gives the vector a fresh data
buffer in which no position has been written; `count` and the selection vector
are left to the caller, which is why `random_function` assigns them itself. -/
def Vector.Initialize {α : Type} (v : Vector α) (type : TypeId) : Vector α :=
  { v with type := type, data := fun _ => none }

/-- Position visited at step `k`: `sel[k]` if there is a selection, else `k`. -/
def Vector.index {α : Type} (v : Vector α) (k : Nat) : Nat :=
  match v.sel_vector with
  | some sel => sel k
  | none => k

/-- Modelled from the spec: `VectorOperations::Exec(vec, f)`, declared outside
the sources at hand. "Invoke `f(i, k)` for `k in 0..count` with
`i = sel[k] if sel else k`". The lambda's captured state is threaded through
the calls as `σ`. -/
def VectorOperations.Exec {α σ : Type} (vector : Vector α) (f : Nat → Nat → σ → σ)
    (s : σ) : σ :=
  (List.range vector.count).foldl (fun st k => f (vector.index k) k st) s

/-- Bind data of `random`: the engine state `gen` and the distribution `dist`,
whose call `dist(gen)` returns a value and advances the engine. The engine and
the value type are left abstract. -/
structure RandomBindData (G α : Type) where
  gen : G
  dist : G → α × G

/-- Writing `v` at position `i` of a data buffer. -/
def writeData {α : Type} (data : Nat → Option α) (i : Nat) (v : α) : Nat → Option α :=
  fun p => if p = i then some v else data p

/-- The body of `random_function`. `result` is the out-parameter as handed in;
the returned pair is the result vector and the bind data after the call.
```
result.Initialize(TypeId::DOUBLE);
result.count = 1;
if (exec.chunk) { result.count = exec.chunk->size(); result.sel_vector = exec.chunk->sel_vector; }
double *result_data = (double *) result.data;
VectorOperations::Exec(result, [&](index_t i, index_t k) { result_data[i] = info.dist(info.gen); });
``` -/
def random_function {G α : Type} (exec : ExpressionExecutor) (info : RandomBindData G α)
    (result : Vector α) : Vector α × RandomBindData G α :=
  let result := result.Initialize TypeId.DOUBLE
  let result := { result with count := 1 }
  let result :=
    match exec.chunk with
    | some chunk => { result with count := chunk.size, sel_vector := chunk.sel_vector }
    | none => result
  let st := VectorOperations.Exec result
    (fun i _ (st : (Nat → Option α) × G) =>
      let r := info.dist st.2
      (writeData st.1 i r.1, r.2))
    (result.data, info.gen)
  ({ result with data := st.1 }, { info with gen := st.2 })

/-- An engine for examples: the state is a counter, a draw returns ten times
the counter and advances it by one. -/
def exampleInfo : RandomBindData Nat Nat :=
  { gen := 5, dist := fun g => (10 * g, g + 1) }

/-- A vector that comes with a selection vector, every entry of which is 7. -/
def exampleSelectedVector : Vector Nat :=
  { type := TypeId.BOOLEAN, count := 0, sel_vector := some (fun _ => 7), data := fun _ => none }

/-- An executor for examples without a chunk. -/
def exampleExecNoChunk : ExpressionExecutor :=
  { chunk := none }

/-! ## Dates and timestamps (`common/types/date`, `common/types/timestamp`)

The sources at hand hold the tests of these functions, not their bodies. -/

/-- Modelled from the spec: the Gregorian leap-year rule used by date
validation, "year divisible by 4, not by 100 unless by 400". -/
def Date.IsLeapYear (year : Nat) : Bool :=
  year % 4 == 0 && (year % 100 != 0 || year % 400 == 0)

/-- Modelled from the spec: the length of a month "accounting for leap years";
0 for a month outside 1..12. -/
def Date.MonthDays (year month : Nat) : Nat :=
  match month with
  | 1 => 31
  | 2 => if Date.IsLeapYear year then 29 else 28
  | 3 => 31
  | 4 => 30
  | 5 => 31
  | 6 => 30
  | 7 => 31
  | 8 => 31
  | 9 => 30
  | 10 => 31
  | 11 => 30
  | 12 => 31
  | _ => 0

/-- Modelled from the spec: a calendar date is valid when the month is in
1..12 and the day is in 1..(length of that month in that year). -/
def Date.IsValidDay (year month day : Nat) : Bool :=
  decide (1 ≤ month) && decide (month ≤ 12) && decide (1 ≤ day) &&
    decide (day ≤ Date.MonthDays year month)

/-- Modelled from the spec: a time of day is valid when its components are in
range (hours below 24, minutes and seconds below 60). -/
def Time.IsValidTime (hour min sec : Nat) : Bool :=
  decide (hour < 24) && decide (min < 60) && decide (sec < 60)

/-- A timestamp broken into its calendar and clock fields. -/
structure timestamp_struct where
  year : Nat
  month : Nat
  day : Nat
  hour : Nat
  min : Nat
  sec : Nat
  deriving DecidableEq, Repr

/-- The error of date/timestamp parsing ("fails with InvalidInput"). -/
inductive ParseError
  | InvalidInput
  deriving DecidableEq, Repr

/-- Value of a decimal digit character, `none` for any other character. -/
def digitValue (c : Char) : Option Nat :=
  if c.isDigit then some (c.toNat - 48) else none

/-- Value of a run of decimal digit characters of fixed length, `none` if one
of them is not a digit. -/
def digitsValue : List Char → Option Nat
  | [] => some 0
  | c :: cs =>
    match digitValue c, digitsValue cs with
    | some d, some n => some (d * 10 ^ cs.length + n)
    | _, _ => none

/-- Modelled from the spec: `Timestamp::FromString` on the characters of its
argument. "Date/timestamp parsing accepts strictly `YYYY-MM-DD` and
`YYYY-MM-DD HH:MM:SS` with `-` and `:` as separators; any other separator,
out-of-range month/day (accounting for leap years via the Gregorian rule), or
out-of-range time components fails with InvalidInput". A date alone is given
the time 00:00:00. -/
def Timestamp.FromChars : List Char → Except ParseError timestamp_struct
  | [y1, y2, y3, y4, p, m1, m2, q, d1, d2] =>
    match digitsValue [y1, y2, y3, y4], digitsValue [m1, m2], digitsValue [d1, d2] with
    | some year, some month, some day =>
      if p = '-' ∧ q = '-' ∧ Date.IsValidDay year month day = true then
        .ok { year := year, month := month, day := day, hour := 0, min := 0, sec := 0 }
      else .error .InvalidInput
    | _, _, _ => .error .InvalidInput
  | [y1, y2, y3, y4, p, m1, m2, q, d1, d2, b, h1, h2, r, n1, n2, t, s1, s2] =>
    match digitsValue [y1, y2, y3, y4], digitsValue [m1, m2], digitsValue [d1, d2],
      digitsValue [h1, h2], digitsValue [n1, n2], digitsValue [s1, s2] with
    | some year, some month, some day, some hour, some min, some sec =>
      if p = '-' ∧ q = '-' ∧ b = ' ' ∧ r = ':' ∧ t = ':' ∧
          Date.IsValidDay year month day = true ∧ Time.IsValidTime hour min sec = true then
        .ok { year := year, month := month, day := day, hour := hour, min := min, sec := sec }
      else .error .InvalidInput
    | _, _, _, _, _, _ => .error .InvalidInput
  | _ => .error .InvalidInput

/-- Modelled from the spec: `Timestamp::FromString`, see `Timestamp.FromChars`. -/
def Timestamp.FromString (str : String) : Except ParseError timestamp_struct :=
  Timestamp.FromChars str.toList

deriving instance DecidableEq for Except

/-- Whether a result is a success (`REQUIRE_NO_FAIL`) rather than an error
(`REQUIRE_FAIL`). -/
def succeeded {ε α : Type} : Except ε α → Bool
  | .ok _ => true
  | .error _ => false

/-- The two-digit rendering of a number below 100. -/
def twoDigits (n : Nat) : List Char :=
  [Nat.digitChar (n / 10 % 10), Nat.digitChar (n % 10)]

/-- The four-digit rendering of a number below 10000. -/
def fourDigits (n : Nat) : List Char :=
  [Nat.digitChar (n / 1000 % 10), Nat.digitChar (n / 100 % 10),
   Nat.digitChar (n / 10 % 10), Nat.digitChar (n % 10)]

/-- The text `YYYY p MM q DD b HH r MM t SS` of the six fields written with the
separator characters `p q b r t`. -/
def timestampText (year month day hour min sec : Nat) (p q b r t : Char) : List Char :=
  fourDigits year ++ [p] ++ twoDigits month ++ [q] ++ twoDigits day ++ [b] ++
    twoDigits hour ++ [r] ++ twoDigits min ++ [t] ++ twoDigits sec

/-! ## `age` (`Timestamp::GetDifference` and the rendering of an interval)

The sources at hand hold the tests of `age`, not its body. -/

/-- A prepared-statement entry of the catalog: the connection that owns it, its
name, and the tables its bound plan references (its dependency edges). -/
structure PreparedStatementEntry where
  connection : Nat
  name : String
  tables : List String
  deriving DecidableEq, Repr

/-- The catalog entities that matter for dependencies: the tables, by
(lower-case) name, and the live prepared statements of all connections. -/
structure Catalog where
  tables : List String
  prepared : List PreparedStatementEntry
  deriving DecidableEq, Repr

/-- Catalog error kinds. -/
inductive CatalogError
  | NotFound | DuplicateName | DependencyExists
  deriving DecidableEq, Repr

/-- The live dependents of a table: the prepared statements, of any connection,
that reference it. -/
def Catalog.dependents (catalog : Catalog) (table : String) : List PreparedStatementEntry :=
  catalog.prepared.filter (fun p => decide (table ∈ p.tables))

/-- Modelled from the spec: `DropTable(cascade)`. "Dropping `target` fails with
DependencyExists if any live dependent exists; CASCADE removes dependents
(including prepared statements) transitively." Nothing depends on a prepared
statement, so the dependents of a table are removed in one step. A failing drop
returns no new catalog. -/
def Catalog.DropTable (catalog : Catalog) (table : String) (cascade : Bool) :
    Except CatalogError Catalog :=
  if table ∉ catalog.tables then .error .NotFound
  else if cascade then
    .ok { tables := catalog.tables.filter (fun t => decide (t ≠ table)),
          prepared := catalog.prepared.filter (fun p => decide (table ∉ p.tables)) }
  else if catalog.dependents table ≠ [] then .error .DependencyExists
  else .ok { catalog with tables := catalog.tables.filter (fun t => decide (t ≠ table)) }

/-- Modelled from the spec: `Connection.deallocate(name)`, "idempotent; unknown
names succeed silently": the statement of that name of that connection, if any,
is removed with its dependency edges. -/
def Catalog.Deallocate (catalog : Catalog) (connection : Nat) (name : String) : Catalog :=
  { catalog with
    prepared := catalog.prepared.filter
      (fun p => !(decide (p.connection = connection) && decide (p.name = name))) }

/-- The catalog after a statement: the new catalog if the statement succeeded,
the old one if it failed ("no partial state is committed"). -/
def Catalog.after (catalog : Catalog) (result : Except CatalogError Catalog) : Catalog :=
  match result with
  | .ok next => next
  | .error _ => catalog

/-- The catalog of the test "PREPARE and DROPping tables" after connection 1
created table `a` and connection 2 prepared `p1 AS SELECT * FROM a`. -/
def exampleCatalog : Catalog :=
  { tables := ["a"], prepared := [{ connection := 2, name := "p1", tables := ["a"] }] }

/-! ## Binder: parameter typing of prepared statements

The sources at hand hold the tests of `PREPARE`, not the binder. -/

/-- A scalar value of the embedding: a whole number tagged with its numeric
type, or a text. -/
inductive Value
  | integer (type : SQLType) (v : Int)
  | varchar (s : String)
  deriving DecidableEq, Repr

/-- The type of a value: the tag of a number, VARCHAR for a text. -/
def Value.type : Value → SQLType
  | .integer type _ => type
  | .varchar _ => SQLType.VARCHAR

/-- Position of a numeric type in the numeric lattice, DOUBLE at the top;
0 for a type that is not numeric. -/
def SQLType.rank : SQLType → Nat
  | .TINYINT => 1
  | .SMALLINT => 2
  | .INTEGER => 3
  | .BIGINT => 4
  | .REAL => 5
  | .DOUBLE => 6
  | _ => 0

/-- Join of two operand types: the higher of the two in the numeric lattice. -/
def SQLType.join (a b : SQLType) : SQLType :=
  if b.rank ≤ a.rank then a else b

/-- The expressions of a parsed statement that matter for parameter typing:
literals, column references (with the column's type from the catalog),
parameters `$N`, `CAST(child AS target)`, comparisons, arithmetic operators,
`child IN (list)` and scalar subqueries `(SELECT select)`. -/
inductive ParsedExpression
  | constant (value : Value)
  | column (type : SQLType)
  | parameter (index : Nat)
  | cast (target : SQLType) (child : ParsedExpression)
  | comparison (left right : ParsedExpression)
  | arithmetic (left right : ParsedExpression)
  | in_list (child : ParsedExpression) (list : List ParsedExpression)
  | subquery (select : ParsedExpression)
  deriving Repr

/-- A statement handed to `PREPARE`: a query with the expressions of its select
list and predicates, or `INSERT INTO t VALUES rows` with the types of the
target columns of `t`. -/
inductive SQLStatement
  | select (expressions : List ParsedExpression)
  | insert (columns : List SQLType) (rows : List (List ParsedExpression))
  deriving Repr

/-- Binder errors. -/
inductive BindError
  | UnresolvedParameterType
  deriving DecidableEq, Repr

/-- The type an expression has by itself, before its context is looked at;
`none` for a parameter, whose type can only come from its context. Arithmetic
on two operands without a type of their own is typed DOUBLE (the test
"type will be resolved to double" for `SELECT $1+$2`). -/
def ParsedExpression.ownType : ParsedExpression → Option SQLType
  | .constant value => some value.type
  | .column type => some type
  | .parameter _ => none
  | .cast target _ => some target
  | .comparison _ _ => some SQLType.BOOLEAN
  | .arithmetic left right =>
    match left.ownType, right.ownType with
    | some a, some b => some (a.join b)
    | some a, none => some a
    | none, some b => some b
    | none, none => some SQLType.DOUBLE
  | .in_list _ _ => some SQLType.BOOLEAN
  | .subquery select => select.ownType

/-- The type the operands and list members of an IN expression share: the own
type of the first of them that has one. -/
def firstOwnType : List ParsedExpression → Option SQLType
  | [] => none
  | e :: rest =>
    match e.ownType with
    | some t => some t
    | none => firstOwnType rest

mutual
/-- Modelled from the spec: the binder's parameter typing. "Parameters must be
reachable to a concrete type through context: the other side of a comparison,
an explicit CAST, an IN-list sibling, an INSERT target column"; a parameter
with no such context "fails binding with UnresolvedParameterType". `context`
is the type the surroundings give to the expression, and the result lists the
type resolved for each parameter occurrence. -/
def ParsedExpression.Bind (context : Option SQLType) :
    ParsedExpression → Except BindError (List (Nat × SQLType))
  | .constant _ => .ok []
  | .column _ => .ok []
  | .parameter index =>
    match context with
    | some type => .ok [(index, type)]
    | none => .error .UnresolvedParameterType
  | .cast target child => child.Bind (some target)
  | .comparison left right =>
    match (left.ownType <|> right.ownType) with
    | none => .error .UnresolvedParameterType
    | some type =>
      match left.Bind (some type), right.Bind (some type) with
      | .ok l, .ok r => .ok (l ++ r)
      | _, _ => .error .UnresolvedParameterType
  | .arithmetic left right =>
    match left.Bind (some ((left.ownType <|> right.ownType).getD SQLType.DOUBLE)),
      right.Bind (some ((left.ownType <|> right.ownType).getD SQLType.DOUBLE)) with
    | .ok l, .ok r => .ok (l ++ r)
    | _, _ => .error .UnresolvedParameterType
  | .in_list child list =>
    match firstOwnType (child :: list) with
    | none => .error .UnresolvedParameterType
    | some type =>
      match child.Bind (some type), ParsedExpression.BindList (some type) list with
      | .ok c, .ok l => .ok (c ++ l)
      | _, _ => .error .UnresolvedParameterType
  | .subquery select => select.Bind none
/-- Binding of a list of expressions that share one context. -/
def ParsedExpression.BindList (context : Option SQLType) :
    List ParsedExpression → Except BindError (List (Nat × SQLType))
  | [] => .ok []
  | e :: rest =>
    match e.Bind context, ParsedExpression.BindList context rest with
    | .ok a, .ok b => .ok (a ++ b)
    | _, _ => .error .UnresolvedParameterType
end

/-- Binding of one row of an INSERT: each value takes the type of its target
column as context. -/
def BindRow : List SQLType → List ParsedExpression → Except BindError (List (Nat × SQLType))
  | column :: columns, e :: rest =>
    match e.Bind (some column), BindRow columns rest with
    | .ok a, .ok b => .ok (a ++ b)
    | _, _ => .error .UnresolvedParameterType
  | _, [] => .ok []
  | [], e :: rest =>
    match e.Bind none, BindRow [] rest with
    | .ok a, .ok b => .ok (a ++ b)
    | _, _ => .error .UnresolvedParameterType

/-- Binding of the rows of an INSERT. -/
def BindRows (columns : List SQLType) :
    List (List ParsedExpression) → Except BindError (List (Nat × SQLType))
  | [] => .ok []
  | row :: rows =>
    match BindRow columns row, BindRows columns rows with
    | .ok a, .ok b => .ok (a ++ b)
    | _, _ => .error .UnresolvedParameterType

/-- Modelled from the spec: `PREPARE name AS statement` binds the statement; it
succeeds with the resolved parameter types or fails with the binder's error.
The expressions of a query get no context from the statement, the values of an
INSERT get their target column's type. -/
def Prepare : SQLStatement → Except BindError (List (Nat × SQLType))
  | .select expressions => ParsedExpression.BindList none expressions
  | .insert columns rows => BindRows columns rows

mutual
/-- The parameters that occur in an expression. -/
def ParsedExpression.parameters : ParsedExpression → List Nat
  | .constant _ => []
  | .column _ => []
  | .parameter index => [index]
  | .cast _ child => child.parameters
  | .comparison left right => left.parameters ++ right.parameters
  | .arithmetic left right => left.parameters ++ right.parameters
  | .in_list child list => child.parameters ++ ParsedExpression.parametersList list
  | .subquery select => select.parameters
/-- The parameters that occur in a list of expressions. -/
def ParsedExpression.parametersList : List ParsedExpression → List Nat
  | [] => []
  | e :: rest => e.parameters ++ ParsedExpression.parametersList rest
end

/-- The parameters that occur in a statement. -/
def SQLStatement.parameters : SQLStatement → List Nat
  | .select expressions => ParsedExpression.parametersList expressions
  | .insert _ rows => (rows.map ParsedExpression.parametersList).flatten

/-! ## Casts, `EXECUTE` and `INSERT`

The sources at hand hold the tests of `EXECUTE` and `INSERT` and the
declaration of `PhysicalInsert`, not the cast operators or `GetChunkInternal`. -/

/-- Conversion error kinds. -/
inductive ConversionError
  | OutOfRange | InvalidFormat
  deriving DecidableEq, Repr

/-- The range of an integer type (8, 16, 32 and 64 bits, two's complement);
`none` for a type that is not an integer type. -/
def SQLType.integerRange : SQLType → Option (Int × Int)
  | .TINYINT => some (-128, 127)
  | .SMALLINT => some (-32768, 32767)
  | .INTEGER => some (-2147483648, 2147483647)
  | .BIGINT => some (-9223372036854775808, 9223372036854775807)
  | _ => none

/-- The whole number a text writes: an optional `-` and at least one digit. -/
def parseInteger (str : String) : Option Int :=
  match str.toList with
  | [] => none
  | ['-'] => none
  | '-' :: digits => (digitsValue digits).map (fun n => -(n : Int))
  | digits => (digitsValue digits).map (fun n => (n : Int))

/-- The whole number a value holds or writes. -/
def Value.toInteger : Value → Option Int
  | .integer _ v => some v
  | .varchar s => parseInteger s

/-- Modelled from the spec: `TryCast(value, target_type)`, total ("must never
panic"). A cast to an integer type fails with OutOfRange when the number is
outside the range of the type ("OutOfRange when e.g. 10000 is inserted into
TINYINT") and with InvalidFormat when a text does not write a number; REAL and
DOUBLE, above the integer types in the numeric lattice, take every whole
number; a cast to VARCHAR writes the value. Values of the remaining types
(BOOLEAN, DATE, TIMESTAMP, BLOB) are not part of this embedding: a cast to one
of them is reported as InvalidFormat. -/
def TryCast (value : Value) (target : SQLType) : Except ConversionError Value :=
  match target with
  | .VARCHAR =>
    match value with
    | .integer _ v => .ok (.varchar (toString v))
    | .varchar s => .ok (.varchar s)
  | .REAL | .DOUBLE =>
    match value.toInteger with
    | some v => .ok (.integer target v)
    | none => .error .InvalidFormat
  | _ =>
    match target.integerRange, value.toInteger with
    | some (lo, hi), some v =>
      if lo ≤ v ∧ v ≤ hi then .ok (.integer target v) else .error .OutOfRange
    | _, _ => .error .InvalidFormat

/-- A prepared statement as `EXECUTE` sees it: the resolved types of its
declared parameters `$1 .. $n`, in order. -/
structure PreparedStatement where
  types : List SQLType
  deriving DecidableEq, Repr

/-- Errors of `EXECUTE`: a wrong number of arguments, or a failed conversion. -/
inductive ExecuteError
  | ParameterCount
  | Conversion (kind : ConversionError)
  deriving DecidableEq, Repr

/-- Casts each value to the type at its position; the first failing cast is the
error. The cast operator is an argument. -/
def CastValues (cast : Value → SQLType → Except ConversionError Value) :
    List SQLType → List Value → Except ConversionError (List Value)
  | type :: types, value :: values =>
    match cast value type with
    | .error e => .error e
    | .ok v =>
      match CastValues cast types values with
      | .error e => .error e
      | .ok vs => .ok (v :: vs)
  | _, _ => .ok []

/-- Modelled from the spec: the argument binding of `EXECUTE name(args)`.
"`EXECUTE` must supply exactly the declared count with castable types": the
number of arguments must be the number of declared parameters, and each
argument is cast to the resolved type of its parameter. The result is the list
of constants that replace the parameters of the cached plan. -/
def PreparedStatement.Execute (cast : Value → SQLType → Except ConversionError Value)
    (statement : PreparedStatement) (args : List Value) : Except ExecuteError (List Value) :=
  if args.length ≠ statement.types.length then .error .ParameterCount
  else
    match CastValues cast statement.types args with
    | .ok values => .ok values
    | .error e => .error (.Conversion e)

/-- A table: the types of its columns and its rows. -/
structure Table where
  columns : List SQLType
  rows : List (List Value)
  deriving DecidableEq, Repr

/-- Casts the rows of an INSERT to the column types, the first failing cast
being the error. -/
def CastRows (columns : List SQLType) : List (List Value) → Except ConversionError (List (List Value))
  | [] => .ok []
  | row :: rows =>
    match CastValues TryCast columns row with
    | .error e => .error e
    | .ok r =>
      match CastRows columns rows with
      | .error e => .error e
      | .ok rs => .ok (r :: rs)

/-- Modelled from the spec: `PhysicalInsert::GetChunkInternal`, declared in
`physical_insert.hpp` and defined outside the sources at hand. Insert
"evaluates row-list expressions, ..., casts to column types (failing with
OutOfRange when e.g. 10000 is inserted into TINYINT), and hands the produced
chunk to Storage". `insert_values` holds the values of the row-list
expressions; a failing cast aborts the statement and no row is appended. -/
def PhysicalInsert.GetChunkInternal (table : Table) (insert_values : List (List Value)) :
    Except ConversionError Table :=
  match CastRows table.columns insert_values with
  | .error e => .error e
  | .ok rows => .ok { table with rows := table.rows ++ rows }

/-- Modelled from the spec: `EXECUTE p(args)` for
`PREPARE p AS INSERT INTO t VALUES ($1, ..., $n)`. Each parameter has the type
of its target column; the arguments are bound as in `PreparedStatement.Execute`
and the resulting row is inserted. -/
def ExecutePreparedInsert (table : Table) (args : List Value) : Except ExecuteError Table :=
  match PreparedStatement.Execute TryCast { types := table.columns } args with
  | .error e => .error e
  | .ok values =>
    match PhysicalInsert.GetChunkInternal table [values] with
    | .error e => .error (.Conversion e)
    | .ok next => .ok next

/-- The statement `s1` of the test "Basic prepared statements",
`SELECT CAST($1 AS INTEGER), CAST($2 AS STRING)`. -/
def exampleStatement : PreparedStatement :=
  { types := [SQLType.INTEGER, SQLType.VARCHAR] }

/-! ## benchmark/benchmark_runner.cpp -/

/-- A registered benchmark as the runner sees it: its `name` and `group`, and
what its methods `GetInfo()`, `NRuns()`, `RequireReinit()` and `Timeout()`
return. `Timeout()` is the `int` handed to `sleep_thread`; the class is
declared outside this file. -/
structure Benchmark where
  name : String
  group : String
  info : String
  nruns : Nat
  require_reinit : Bool
  timeout : Int
  deriving DecidableEq, Repr

/-- What the runner sees of one timed run of a benchmark: how many reads of
`is_active` by the watchdog thread return true before the main thread clears
the flag after `Cleanup`, and what `GetLogOutput(state)`, `Verify(state)` and
`to_string(profiler.Elapsed())` return. -/
structure RunObservation where
  active_reads : Nat
  log_output : String
  verify : String
  elapsed : String
  deriving DecidableEq, Repr

/-- What the runner uses from outside this file: `StringUtil::StartsWith`,
`StringUtil::Split`, whether the file `name` can be opened for writing,
`RE2::FullMatch(text, pattern)`, and what run number `i` of a benchmark shows
(`observe benchmark i`, run 0 being the cold run). -/
structure Environment where
  StartsWith : String → String → Bool
  Split : String → Char → List String
  open_file : String → Bool
  FullMatch : String → String → Bool
  observe : Benchmark → Nat → RunObservation

/-- The calls the runner makes on a benchmark. -/
inductive BenchmarkCall
  | Initialize | Run | Interrupt | Cleanup | GetLogOutput | Verify | Finalize
  deriving DecidableEq, Repr

/-- The observable state of the process: the lines written to `stdout` and to
`stderr`, the files opened for `out_file` and `log_file`, and the names of the
benchmarks `RunBenchmark` was called on, in call order; further the text
written to `stderr` since its last newline (`pending`), the lines written to
the two files, the messages handed to `LogResult`, and the calls made on
benchmarks, each in order. -/
structure Process where
  stdout : List String
  stderr : List String
  out_file : Option String
  log_file : Option String
  ran : List String
  pending : String := ""
  out_written : List String := []
  log_written : List String := []
  results : List String := []
  calls : List BenchmarkCall := []
  deriving DecidableEq, Repr

/-- A function either returns a value or ends the process with `exit(code)`;
both come with the process state reached. -/
inductive Outcome (α : Type)
  | ret (value : α) (state : Process)
  | exit (code : Nat) (state : Process)
  deriving DecidableEq, Repr

/-- The lines `print_help` writes. -/
def help_text : List String :=
  ["Usage: benchmark_runner",
   "              --list         Show a list of all benchmarks",
   "              --out=[file]   Move benchmark output to file",
   "              --log=[file]   Move log output to file",
   "              --info         Prints info about the benchmark",
   "              [name_pattern] Run only the benchmark which names match the specified name pattern, e.g., DS.* for TPC-DS benchmarks"]

/-- `print_help`: six `fprintf(stderr, ...)` lines. -/
def print_help (state : Process) : Process :=
  { state with stderr := state.stderr ++ help_text }

/-- `struct BenchmarkConfiguration`, default `name_pattern{}` and `info{false}`. -/
structure BenchmarkConfiguration where
  name_pattern : String
  info : Bool
  deriving DecidableEq, Repr

/-- `enum ConfigurationError`. -/
inductive ConfigurationError
  | None | BenchmarkNotFound | InfoWithoutBenchmarkName
  deriving DecidableEq, Repr

/-- `file.open(name)` on a `std::ofstream` whose open file is `file` (`none`
for a stream that is not open), followed by `file.good()`. `open` fails and
sets failbit when the stream is already open, which leaves its file as it is,
and when the file cannot be opened; on success the stream is cleared. The
result is the file of the stream after the call and what `good()` returns. -/
def ofstream_open (env : Environment) (file : Option String) (name : String) :
    Option String × Bool :=
  match file with
  | some opened => (some opened, false)
  | none => if env.open_file name then (some name, true) else (none, false)

/-- The body of the `for` loop of `parse_arguments`, from `arg_index` on:
`args` are the arguments not yet looked at. The stream `file` is
`instance.out_file` for `--out=` and `instance.log_file` otherwise. -/
def parse_arguments_loop (env : Environment) (benchmarks : List Benchmark) :
    List String → BenchmarkConfiguration → Process → Outcome BenchmarkConfiguration
  | [], configuration, state => .ret configuration state
  | arg :: rest, configuration, state =>
    if arg = "--list" then
      .exit 0 { state with
        stdout := state.stdout ++
          (benchmarks.filter (fun benchmark => !env.StartsWith benchmark.name "sqlite_")).map
            (fun benchmark => benchmark.name) }
    else if arg = "--info" then
      parse_arguments_loop env benchmarks rest { configuration with info := true } state
    else if env.StartsWith arg "--out=" || env.StartsWith arg "--log=" then
      match env.Split arg '=' with
      | [_, name] =>
        if env.StartsWith arg "--out=" then
          if (ofstream_open env state.out_file name).2 then
            parse_arguments_loop env benchmarks rest configuration
              { state with out_file := (ofstream_open env state.out_file name).1 }
          else
            .exit 1 { state with
              out_file := (ofstream_open env state.out_file name).1,
              stderr := state.stderr ++ ["Could not open file " ++ name ++ " for writing"] }
        else
          if (ofstream_open env state.log_file name).2 then
            parse_arguments_loop env benchmarks rest configuration
              { state with log_file := (ofstream_open env state.log_file name).1 }
          else
            .exit 1 { state with
              log_file := (ofstream_open env state.log_file name).1,
              stderr := state.stderr ++ ["Could not open file " ++ name ++ " for writing"] }
      | _ => .exit 1 (print_help state)
    else if configuration.name_pattern ≠ "" then
      .exit 1 (print_help
        { state with stderr := state.stderr ++ ["Only one benchmark can be specified."] })
    else
      parse_arguments_loop env benchmarks rest { configuration with name_pattern := arg } state

/-- `parse_arguments(arg_counter, arg_values)`: the loop starts at index 1, after
the program name. -/
def parse_arguments (env : Environment) (benchmarks : List Benchmark)
    (arg_values : List String) (state : Process) : Outcome BenchmarkConfiguration :=
  parse_arguments_loop env benchmarks (arg_values.drop 1)
    { name_pattern := "", info := false } state

/-- `timeout_duration * 100` in `int` arithmetic: the product of two 32-bit
signed integers, kept in the 32-bit range by two's complement wrap-around. -/
def int_times_100 (timeout_duration : Int) : Int :=
  (timeout_duration * 100 + 2 ^ 31) % 2 ^ 32 - 2 ^ 31

/-- `(size_t) x` for an `int` `x`, with a 64-bit `size_t`. -/
def to_size_t (x : Int) : Nat :=
  (x % 2 ^ 64).toNat

/-- What one call of `sleep_thread` did: the number of reads of `is_active` in
the loop condition (`polls`), the number of 10 ms sleeps, the `timeout` flag
after the call, and whether `benchmark->Interrupt(state)` was called. -/
structure WatchdogResult where
  polls : Nat
  sleeps : Nat
  timeout : Bool
  interrupted : Bool
  deriving DecidableEq, Repr

/-- The loop `for (size_t i = 0; i < bound && is_active; i++) sleep_for(10ms)`,
from `i` on with `remaining = bound - i`. `is_active k` is the value read by
read number `k` of the flag, and since every pass makes one read, the pass at
`i` makes read number `i`. The result is `i` at loop exit and whether the loop
ended on reading the flag as false. -/
def sleep_thread_loop (is_active : Nat → Bool) : Nat → Nat → Nat × Bool
  | 0, i => (i, false)
  | remaining + 1, i =>
    if is_active i then sleep_thread_loop is_active remaining (i + 1) else (i, true)

/-- `sleep_thread(benchmark, state, timeout_duration)`: `timeout` is the value
of the flag before the call.
```
if (timeout_duration < 0) { return; }
for (size_t i = 0; i < (size_t)(timeout_duration * 100) && is_active; i++) { sleep_for(10ms); }
if (is_active) { timeout = true; benchmark->Interrupt(state); }
``` -/
def sleep_thread (timeout_duration : Int) (is_active : Nat → Bool) (timeout : Bool) :
    WatchdogResult :=
  if timeout_duration < 0 then
    { polls := 0, sleeps := 0, timeout := timeout, interrupted := false }
  else
    let exit := sleep_thread_loop is_active (to_size_t (int_times_100 timeout_duration)) 0
    let polls := if exit.2 then exit.1 + 1 else exit.1
    if is_active polls then
      { polls := polls, sleeps := exit.1, timeout := true, interrupted := true }
    else
      { polls := polls, sleeps := exit.1, timeout := timeout, interrupted := false }

/-- `BenchmarkRunner::Log`: `fprintf(stderr, "%s", message)`, no newline. -/
def BenchmarkRunner.Log (message : String) (state : Process) : Process :=
  { state with pending := state.pending ++ message }

/-- `BenchmarkRunner::LogLine`: `fprintf(stderr, "%s\n", message)`, which ends
the line begun by earlier `Log` calls. -/
def BenchmarkRunner.LogLine (message : String) (state : Process) : Process :=
  { state with stderr := state.stderr ++ [state.pending ++ message], pending := "" }

/-- `BenchmarkRunner::LogResult`: `LogLine(message)`, and a line in `out_file`
if a file was opened for it. The message is also recorded in `results`. -/
def BenchmarkRunner.LogResult (message : String) (state : Process) : Process :=
  let state := BenchmarkRunner.LogLine message state
  let state := { state with results := state.results ++ [message] }
  match state.out_file with
  | some _ => { state with out_written := state.out_written ++ [message] }
  | none => state

/-- `BenchmarkRunner::LogOutput`: a line in `log_file` if a file was opened for
it. -/
def BenchmarkRunner.LogOutput (message : String) (state : Process) : Process :=
  match state.log_file with
  | some _ => { state with log_written := state.log_written ++ [message] }
  | none => state

/-- A call on the benchmark, recorded in `calls`. -/
def Process.call (c : BenchmarkCall) (state : Process) : Process :=
  { state with calls := state.calls ++ [c] }

/-- The `for (size_t i = 0; i < nruns + 1; i++)` loop of `RunBenchmark`, from
`i` on with `remaining = nruns + 1 - i`; a `break` ends the recursion. The
watchdog thread of a run is `sleep_thread` with the flag `timeout` set to false
and `is_active` true for the first `active_reads` reads; its `Interrupt` call,
made while `Run` executes, is recorded right after `Run`. -/
def BenchmarkRunner.RunBenchmark_loop (env : Environment) (benchmark : Benchmark)
    (nruns : Nat) : Nat → Nat → Process → Process
  | 0, _, state => state
  | remaining + 1, i, state =>
    let hotrun := decide (0 < i)
    let state :=
      if hotrun then BenchmarkRunner.Log (toString i ++ "/" ++ toString nruns ++ "...") state
      else BenchmarkRunner.Log "Cold run..." state
    let state :=
      if hotrun && benchmark.require_reinit then state.call .Initialize else state
    let observation := env.observe benchmark i
    let watchdog := sleep_thread benchmark.timeout
      (fun k => decide (k < observation.active_reads)) false
    let state := state.call .Run
    let state := if watchdog.interrupted then state.call .Interrupt else state
    let state := state.call .Cleanup
    if hotrun then
      let state := BenchmarkRunner.LogOutput observation.log_output (state.call .GetLogOutput)
      if watchdog.timeout then
        BenchmarkRunner.LogResult "TIMEOUT" state
      else
        let state := state.call .Verify
        if observation.verify ≠ "" then
          BenchmarkRunner.LogOutput ("INCORRECT RESULT: " ++ observation.verify)
            (BenchmarkRunner.LogLine ("INCORRECT RESULT: " ++ observation.verify)
              (BenchmarkRunner.LogResult "INCORRECT" state))
        else
          BenchmarkRunner.RunBenchmark_loop env benchmark nruns remaining (i + 1)
            (BenchmarkRunner.LogResult observation.elapsed state)
    else
      BenchmarkRunner.RunBenchmark_loop env benchmark nruns remaining (i + 1)
        (BenchmarkRunner.LogLine "DONE" state)

/-- `BenchmarkRunner::RunBenchmark`. The call is recorded in `ran`. The type of
`NRuns()` is declared outside this file; `nruns + 1` is taken without
overflow. -/
def BenchmarkRunner.RunBenchmark (env : Environment) (benchmark : Benchmark)
    (state : Process) : Process :=
  let state := { state with ran := state.ran ++ [benchmark.name] }
  let rule := String.mk (List.replicate (benchmark.name.utf8ByteSize + 6) '-')
  let state := BenchmarkRunner.LogLine rule state
  let state := BenchmarkRunner.LogLine ("|| " ++ benchmark.name ++ " ||") state
  let state := BenchmarkRunner.LogLine rule state
  let state := state.call .Initialize
  let state := BenchmarkRunner.RunBenchmark_loop env benchmark benchmark.nruns
    (benchmark.nruns + 1) 0 state
  state.call .Finalize

/-- `BenchmarkRunner::RunBenchmarks`: logs a line and runs every registered
benchmark in order. -/
def BenchmarkRunner.RunBenchmarks (env : Environment) (benchmarks : List Benchmark)
    (state : Process) : Process :=
  benchmarks.foldl (fun st benchmark => BenchmarkRunner.RunBenchmark env benchmark st)
    { state with stderr := state.stderr ++ ["Starting benchmark run."] }

/-- The indices `run_benchmarks` collects: those of the benchmarks whose name
the pattern fully matches. -/
def matching_indices (env : Environment) (benchmarks : List Benchmark)
    (name_pattern : String) : List Nat :=
  (List.range benchmarks.length).filter (fun index =>
    match benchmarks[index]? with
    | some benchmark => env.FullMatch benchmark.name name_pattern
    | none => false)

/-- `run_benchmarks(configuration)`. -/
def run_benchmarks (env : Environment) (benchmarks : List Benchmark)
    (configuration : BenchmarkConfiguration) (state : Process) :
    ConfigurationError × Process :=
  if configuration.name_pattern ≠ "" then
    let benchmark_indices := matching_indices env benchmarks configuration.name_pattern
    if benchmark_indices = [] then
      (.BenchmarkNotFound, state)
    else if configuration.info then
      (.None, benchmark_indices.foldl (fun st benchmark_index =>
        match benchmarks[benchmark_index]? with
        | some benchmark => { st with stdout := st.stdout ++ [benchmark.info] }
        | none => st) state)
    else
      (.None, benchmark_indices.foldl (fun st benchmark_index =>
        match benchmarks[benchmark_index]? with
        | some benchmark => BenchmarkRunner.RunBenchmark env benchmark st
        | none => st) state)
  else if configuration.info then
    (.InfoWithoutBenchmarkName, state)
  else
    (.None, BenchmarkRunner.RunBenchmarks env benchmarks state)

/-- `print_error_message(error)`: the message of the error, then the usage
text. -/
def print_error_message (error : ConfigurationError) (state : Process) : Process :=
  match error with
  | .BenchmarkNotFound =>
    print_help { state with stderr := state.stderr ++ ["Benchmark to run could not be found."] }
  | .InfoWithoutBenchmarkName =>
    print_help { state with stderr := state.stderr ++ ["Info requires benchmark name pattern."] }
  | .None => print_help state

/-- `main(argc, argv)`: the exit code of the process and its final state. -/
def main (env : Environment) (benchmarks : List Benchmark) (argv : List String)
    (state : Process) : Nat × Process :=
  match parse_arguments env benchmarks argv state with
  | .exit code st => (code, st)
  | .ret configuration st =>
    match run_benchmarks env benchmarks configuration st with
    | (.None, final) => (0, final)
    | (error, final) => (1, print_error_message error final)

/-- An argument that is none of `--list`, `--info`, `--out=...`, `--log=...`:
one the parser takes as the name pattern. -/
def is_pattern_argument (env : Environment) (arg : String) : Bool :=
  decide (arg ≠ "--list") && decide (arg ≠ "--info") &&
    !(env.StartsWith arg "--out=" || env.StartsWith arg "--log=")

/-- An argument the parser takes as an `--out=`/`--log=` argument: it is
neither `--list` nor `--info` and starts with `--out=` or `--log=`. -/
def is_file_argument (env : Environment) (arg : String) : Bool :=
  decide (arg ≠ "--list") && decide (arg ≠ "--info") &&
    (env.StartsWith arg "--out=" || env.StartsWith arg "--log=")

/-- An `--out=` argument that splits at `=` into two parts: the parser calls
`instance.out_file.open` for it. -/
def opens_out_file (env : Environment) (arg : String) : Bool :=
  is_file_argument env arg && env.StartsWith arg "--out=" &&
    decide ((env.Split arg '=').length = 2)

/-- A `--log=` argument that splits at `=` into two parts: the parser calls
`instance.log_file.open` for it. -/
def opens_log_file (env : Environment) (arg : String) : Bool :=
  is_file_argument env arg && !env.StartsWith arg "--out=" &&
    decide ((env.Split arg '=').length = 2)

/-- An `--out=`/`--log=` argument that does not split at `=` into two parts. -/
def is_malformed_file_argument (env : Environment) (arg : String) : Bool :=
  is_file_argument env arg && decide ((env.Split arg '=').length ≠ 2)

/-- The argument lists on which the parser gets to print the usage text. Some
argument `u` is a malformed `--out=`/`--log=` argument, or a pattern argument
that comes when a non-empty pattern is already set (by the configuration the
loop starts with, or by a pattern argument before `u`); and before `u` there
is no `--list` and no `--out=`/`--log=` argument whose `open` fails: each
names a file that can be opened, and each stream is opened at most once,
counting a stream that is open when the loop starts. -/
def reaches_usage (env : Environment) (configuration : BenchmarkConfiguration)
    (state : Process) (args : List String) : Prop :=
  ∃ before u post, args = before ++ u :: post ∧ "--list" ∉ before ∧
    (∀ arg ∈ before, is_file_argument env arg = true →
      ∀ a name, env.Split arg '=' = [a, name] → env.open_file name = true) ∧
    (before.filter (opens_out_file env)).length + state.out_file.toList.length ≤ 1 ∧
    (before.filter (opens_log_file env)).length + state.log_file.toList.length ≤ 1 ∧
    (is_malformed_file_argument env u = true ∨
      (is_pattern_argument env u = true ∧
        (configuration.name_pattern ≠ "" ∨
          ∃ p ∈ before, is_pattern_argument env p = true ∧ p ≠ "")))

/-- Splitting a list of characters at a delimiter. -/
def splitChars (delimiter : Char) : List Char → List Char → List String
  | [], current => [String.mk current.reverse]
  | c :: rest, current =>
    if c = delimiter then String.mk current.reverse :: splitChars delimiter rest []
    else splitChars delimiter rest (c :: current)

/-- An environment for examples: prefix test, split at the delimiter, every
file can be opened, a pattern matches the name equal to it, and every run is
over after three reads of `is_active`, verifies and takes "0.5". -/
def exampleEnvironment : Environment :=
  { StartsWith := fun str pre => pre.toList.isPrefixOf str.toList,
    Split := fun str delimiter => splitChars delimiter str.toList [],
    open_file := fun _ => true,
    FullMatch := fun text pattern => decide (text = pattern),
    observe := fun _ _ => { active_reads := 3, log_output := "", verify := "", elapsed := "0.5" } }

/-- Two registered benchmarks for examples, with one hot run each and a timeout
of 30 seconds. -/
def exampleBenchmarks : List Benchmark :=
  [{ name := "Q1", group := "tpch", info := "first query", nruns := 1,
     require_reinit := false, timeout := 30 },
   { name := "Q2", group := "tpch", info := "second query", nruns := 1,
     require_reinit := false, timeout := 30 }]

/-- The state of a process that has not written anything yet. -/
def Process.initial : Process :=
  { stdout := [], stderr := [], out_file := none, log_file := none, ran := [] }

/-- The outcome "the usage text is printed and the process exits with code 1":
the process ends with `exit(1)`, the usage text is the last thing written to
`stderr`, and nothing was written to `stdout` or run since `state`. -/
def exits_with_usage (state : Process) (outcome : Outcome BenchmarkConfiguration) : Prop :=
  ∃ final, outcome = .exit 1 final ∧ (∃ before, final.stderr = before ++ help_text) ∧
    final.stdout = state.stdout ∧ final.ran = state.ran

/-- Whether the watchdog of run number `i` set the `timeout` flag. -/
def run_timed_out (env : Environment) (benchmark : Benchmark) (i : Nat) : Bool :=
  (sleep_thread benchmark.timeout
    (fun k => decide (k < (env.observe benchmark i).active_reads)) false).timeout

/-- Whether run number `i` timed out or did not verify. -/
def run_failed (env : Environment) (benchmark : Benchmark) (i : Nat) : Bool :=
  run_timed_out env benchmark i || decide ((env.observe benchmark i).verify ≠ "")

/-- The result line of hot run number `i`: "TIMEOUT", "INCORRECT" or the
elapsed time. -/
def run_result (env : Environment) (benchmark : Benchmark) (i : Nat) : String :=
  if run_timed_out env benchmark i then "TIMEOUT"
  else if (env.observe benchmark i).verify ≠ "" then "INCORRECT"
  else (env.observe benchmark i).elapsed

/-- A benchmark with three hot runs for examples, and an environment in which
its second hot run does not verify. -/
def exampleSlowBenchmark : Benchmark :=
  { name := "Q3", group := "tpch", info := "third query", nruns := 3,
    require_reinit := true, timeout := 30 }

/-- An environment like `exampleEnvironment` in which run number 2 of a
benchmark returns a verification message. -/
def exampleFailingEnvironment : Environment :=
  { exampleEnvironment with
    observe := fun _ i =>
      { active_reads := 3, log_output := "", verify := if i = 2 then "wrong" else "",
        elapsed := "0.5" } }

/-- Registered benchmarks for examples, one of them from the `sqlite_` group. -/
def exampleSqliteBenchmarks : List Benchmark :=
  [{ name := "Q1", group := "tpch", info := "first query", nruns := 1,
     require_reinit := false, timeout := 30 },
   { name := "sqlite_select1", group := "sqlite", info := "select1", nruns := 1,
     require_reinit := false, timeout := 30 }]

/-! ## `Copy`, `Equals` and `Hash` of bound function expressions -/

/-- What `Copy`, `Equals` and `Hash` of a bound function expression use from
outside bound_function_expression.cpp: `BaseExpression::Equals`;
`ScalarFunction::operator!=`; the virtual `Equals`, `Copy` and `Hash` of an
expression of another class (given by its `id`); the base-class
`Expression::Hash()`; `CombineHash` and `duckdb::Hash(const char *)`. Hash
values are 64-bit words, held as numbers. -/
structure ExpressionMethods where
  base_Equals : Expression → Expression → Bool
  function_ne : ScalarFunction → ScalarFunction → Bool
  other_Equals : Nat → Expression → Bool
  other_Copy : Nat → Nat
  other_Hash : Nat → Nat
  base_Hash : Expression → Nat
  CombineHash : Nat → Nat → Nat
  Hash : String → Nat

mutual
/-- Virtual call `this->Equals(other_)`. On a `BoundFunctionExpression`:
```
if (!BaseExpression::Equals(other_)) return false;
auto other = (BoundFunctionExpression *)other_;
if (other->function != function) return false;
if (children.size() != other->children.size()) return false;
for (i ...) if (!Expression::Equals(children[i].get(), other->children[i].get())) return false;
return true;
```
`BaseExpression::Equals` guards the cast of `other_`, which has no meaning on
an expression of another class; there the result is taken as `false`.
`Expression::Equals(a, b)` on two non-null children is `a->Equals(b)`. -/
def Expression.Equals (methods : ExpressionMethods) : Expression → Expression → Bool
  | .bound_function return_type function is_operator children, other_ =>
    if !methods.base_Equals (.bound_function return_type function is_operator children) other_
    then false
    else
      match other_ with
      | .bound_function _ other_function _ other_children =>
        if methods.function_ne other_function function then false
        else if children.length ≠ other_children.length then false
        else Expression.EqualsChildren methods children other_children
      | .other _ _ => false
  | .other _ id, other_ => methods.other_Equals id other_
/-- The loop over the children in `Equals`, on two vectors of the same size. -/
def Expression.EqualsChildren (methods : ExpressionMethods) :
    List Expression → List Expression → Bool
  | child :: rest, other_child :: other_rest =>
    if !Expression.Equals methods child other_child then false
    else Expression.EqualsChildren methods rest other_rest
  | _, _ => true
end

mutual
/-- Virtual call `e.Copy()`. On a `BoundFunctionExpression`:
```
auto copy = make_unique<BoundFunctionExpression>(return_type, function, is_operator);
for (auto &child : children) { copy->children.push_back(child->Copy()); }
copy->bind_info = bind_info ? bind_info->Copy() : nullptr;
copy->CopyProperties(*this);
```
The bind data and the properties `CopyProperties` takes over from `*this` are
not held by the embedding. The result is the copy; `e` is only read. -/
def Expression.Copy (methods : ExpressionMethods) : Expression → Expression
  | .bound_function return_type function is_operator children =>
    .bound_function return_type function is_operator (Expression.CopyChildren methods children)
  | .other is_foldable id => .other is_foldable (methods.other_Copy id)
/-- The loop over the children in `Copy`. -/
def Expression.CopyChildren (methods : ExpressionMethods) : List Expression → List Expression
  | [] => []
  | child :: rest => Expression.Copy methods child :: Expression.CopyChildren methods rest
end

/-- Virtual call `e.Hash()`. On a `BoundFunctionExpression`:
`CombineHash(Expression::Hash(), duckdb::Hash(function.name.c_str()))`. -/
def BoundFunctionExpression.Hash (methods : ExpressionMethods) : Expression → Nat
  | .bound_function return_type function is_operator children =>
    methods.CombineHash
      (methods.base_Hash (.bound_function return_type function is_operator children))
      (methods.Hash function.name)
  | .other _ id => methods.other_Hash id

/-- The children of an expression. -/
def Expression.children : Expression → List Expression
  | .bound_function _ _ _ children => children
  | .other _ _ => []

/-- Methods for examples: the base class compares the expression class,
functions differ when their records differ, an
expression of another class equals the expressions of another class with the
same `id` and is copied with its `id`, the base hash is the number of
children, hashes are combined by `31 * a + b`, and a text is hashed to its
length. -/
def exampleMethods : ExpressionMethods :=
  { base_Equals := fun e other_ =>
      match e, other_ with
      | .bound_function _ _ _ _, .bound_function _ _ _ _ => true
      | .other _ _, .other _ _ => true
      | _, _ => false,
    function_ne := fun f g => decide (f ≠ g),
    other_Equals := fun id e =>
      match e with
      | .other _ other_id => decide (id = other_id)
      | .bound_function _ _ _ _ => false,
    other_Copy := fun id => id,
    other_Hash := fun id => id,
    base_Hash := fun e => e.children.length,
    CombineHash := fun a b => 31 * a + b,
    Hash := fun str => str.length }

/-! ## src/parser/expression/cast_expression.cpp

A `CastExpression` is the parsed expression `.cast cast_type child`. -/

/-- What `Serialize`, `Deserialize` and `Equals` of a cast expression use from
outside cast_expression.cpp. A serializer is the list of the items written to
it, a deserializer the list of the items still to be read. `base_Serialize` is
what `ParsedExpression::Serialize` writes for the base class,
`type_Serialize` and `type_Deserialize` are `SQLType::Serialize` and
`SQLType::Deserialize`; `base_Equals` is `BaseExpression::Equals`;
`read_class` is the start of
`ParsedExpression::Deserialize(source)`, which reads what the base class wrote
and yields the expression class, `cast_class` being `ExpressionClass::CAST`;
`other_Serialize`, `other_Deserialize` (of the class read) and `other_Equals`
are the methods of the expressions of other classes. -/
structure SerializationMethods (Item : Type) where
  base_Equals : ParsedExpression → ParsedExpression → Bool
  base_Serialize : ParsedExpression → List Item
  type_Serialize : SQLType → List Item
  type_Deserialize : List Item → Option (SQLType × List Item)
  read_class : List Item → Option (Nat × List Item)
  cast_class : Nat
  other_Serialize : ParsedExpression → List Item
  other_Deserialize : Nat → List Item → Option (ParsedExpression × List Item)
  other_Equals : ParsedExpression → ParsedExpression → Bool

/-- Whether a parsed expression is a `CastExpression`. -/
def ParsedExpression.is_cast : ParsedExpression → Bool
  | .cast _ _ => true
  | _ => false

/-- The number of casts nested at the top of an expression. -/
def ParsedExpression.cast_depth : ParsedExpression → Nat
  | .cast _ child => child.cast_depth + 1
  | _ => 0

/-- Virtual call `this->Equals(other_)`. On a `CastExpression`:
```
if (!BaseExpression::Equals(other_)) return false;
auto other = (CastExpression *)other_;
if (!child->Equals(other->child.get())) return false;
if (cast_type != other->cast_type) return false;
return true;
```
`BaseExpression::Equals` guards the cast of `other_`, which has no meaning on
an expression of another class; there the result is taken as `false`. -/
def ParsedExpression.Equals {Item : Type} (methods : SerializationMethods Item) :
    ParsedExpression → ParsedExpression → Bool
  | .cast cast_type child, other_ =>
    if !methods.base_Equals (.cast cast_type child) other_ then false
    else
      match other_ with
      | .cast other_cast_type other_child =>
        if !ParsedExpression.Equals methods child other_child then false
        else if cast_type ≠ other_cast_type then false
        else true
      | _ => false
  | .constant value, other_ => methods.other_Equals (.constant value) other_
  | .column type, other_ => methods.other_Equals (.column type) other_
  | .parameter index, other_ => methods.other_Equals (.parameter index) other_
  | .comparison left right, other_ => methods.other_Equals (.comparison left right) other_
  | .arithmetic left right, other_ => methods.other_Equals (.arithmetic left right) other_
  | .in_list child list, other_ => methods.other_Equals (.in_list child list) other_
  | .subquery select, other_ => methods.other_Equals (.subquery select) other_

/-- Virtual call `e.Serialize(serializer)`: what is written. On a
`CastExpression`:
```
ParsedExpression::Serialize(serializer);
child->Serialize(serializer);
cast_type.Serialize(serializer);
``` -/
def ParsedExpression.Serialize {Item : Type} (methods : SerializationMethods Item) :
    ParsedExpression → List Item
  | .cast cast_type child =>
    methods.base_Serialize (.cast cast_type child) ++
      ParsedExpression.Serialize methods child ++ methods.type_Serialize cast_type
  | .constant value => methods.other_Serialize (.constant value)
  | .column type => methods.other_Serialize (.column type)
  | .parameter index => methods.other_Serialize (.parameter index)
  | .comparison left right => methods.other_Serialize (.comparison left right)
  | .arithmetic left right => methods.other_Serialize (.arithmetic left right)
  | .in_list child list => methods.other_Serialize (.in_list child list)
  | .subquery select => methods.other_Serialize (.subquery select)

/-- `CastExpression::Deserialize(type, source)`; `child_Deserialize` is the
call `ParsedExpression::Deserialize(source)` it makes for the child, and the
argument `type` is not used.
```
auto child = ParsedExpression::Deserialize(source);
auto cast_type = SQLType::Deserialize(source);
return make_unique_base<ParsedExpression, CastExpression>(cast_type, move(child));
``` -/
def CastExpression.Deserialize {Item : Type} (methods : SerializationMethods Item)
    (child_Deserialize : List Item → Option (ParsedExpression × List Item))
    (source : List Item) : Option (ParsedExpression × List Item) :=
  match child_Deserialize source with
  | none => none
  | some (child, source) =>
    match methods.type_Deserialize source with
    | none => none
    | some (cast_type, source) => some (.cast cast_type child, source)

/-- `ParsedExpression::Deserialize(source)`, declared outside
cast_expression.cpp: it reads what the base class wrote and calls the
`Deserialize` of the expression class read, `CastExpression::Deserialize` for
CAST. The recursion through the children is bounded by `fuel`; the result is
the expression and the items left to read. -/
def ParsedExpression.Deserialize {Item : Type} (methods : SerializationMethods Item) :
    Nat → List Item → Option (ParsedExpression × List Item)
  | 0, _ => none
  | fuel + 1, source =>
    match methods.read_class source with
    | none => none
    | some (expression_class, source) =>
      if expression_class = methods.cast_class then
        CastExpression.Deserialize methods (ParsedExpression.Deserialize methods fuel) source
      else methods.other_Deserialize expression_class source

/-- Items for examples: an expression class, a type, or an expression of
another class written as a whole. -/
inductive ExampleItem
  | class_tag (n : Nat)
  | sql_type (type : SQLType)
  | expression (e : ParsedExpression)

/-- Serialization methods for examples: the base class compares whether the
two expressions are casts and writes the class tag 1 for a cast; another class writes the tag 0 and itself; a type is written as one
item; expressions of other classes are equal when they have the same type of
their own. -/
def exampleSerialization : SerializationMethods ExampleItem :=
  { base_Equals := fun e other_ => e.is_cast == other_.is_cast,
    base_Serialize := fun _ => [.class_tag 1],
    type_Serialize := fun type => [.sql_type type],
    type_Deserialize := fun source =>
      match source with
      | .sql_type type :: rest => some (type, rest)
      | _ => none,
    read_class := fun source =>
      match source with
      | .class_tag n :: rest => some (n, rest)
      | _ => none,
    cast_class := 1,
    other_Serialize := fun e => [.class_tag 0, .expression e],
    other_Deserialize := fun _ source =>
      match source with
      | .expression e :: rest => some (e, rest)
      | _ => none,
    other_Equals := fun e other_ => decide (e.ownType = other_.ownType) }

/-! # Theorems -/

/-- The base-class result is true exactly when every child is foldable. -/
theorem Expression.IsFoldable_iff_forall (children : List Expression) :
    Expression.IsFoldable children = true ↔
      ∀ c ∈ children, BoundFunctionExpression.IsFoldable c = true := by
  induction children with
  | nil => simp [Expression.IsFoldable]
  | cons c cs ih => simp [Expression.IsFoldable, ih]

/-- C1: a bound function expression is foldable if and only if its function
declares no side effects and the base `Expression::IsFoldable` holds, that is,
every child is foldable. -/
theorem BoundFunctionExpression.IsFoldable_iff (return_type : TypeId)
    (function : ScalarFunction) (is_operator : Bool) (children : List Expression) :
    (BoundFunctionExpression.IsFoldable
        (.bound_function return_type function is_operator children) = true ↔
      (function.has_side_effects = false ∧ Expression.IsFoldable children = true)) ∧
    (Expression.IsFoldable children = true ↔
      ∀ c ∈ children, BoundFunctionExpression.IsFoldable c = true) := by
  refine ⟨?_, Expression.IsFoldable_iff_forall children⟩
  cases h : function.has_side_effects <;> simp [BoundFunctionExpression.IsFoldable, h]

/-- A tree holding a call with side effects is not foldable (and likewise for a
list of children and the base-class result). -/
theorem Expression.hasSideEffectCall_not_foldable :
    (∀ e : Expression, Expression.hasSideEffectCall e = true →
      BoundFunctionExpression.IsFoldable e = false) ∧
    (∀ es : List Expression, Expression.anyHasSideEffectCall es = true →
      Expression.IsFoldable es = false) := by
  have key := @Expression.rec
    (fun e => Expression.hasSideEffectCall e = true →
      BoundFunctionExpression.IsFoldable e = false)
    (fun es => Expression.anyHasSideEffectCall es = true →
      Expression.IsFoldable es = false)
  have keys := @Expression.rec_1
    (fun e => Expression.hasSideEffectCall e = true →
      BoundFunctionExpression.IsFoldable e = false)
    (fun es => Expression.anyHasSideEffectCall es = true →
      Expression.IsFoldable es = false)
  suffices h : _ ∧ _ ∧ _ ∧ _ from
    ⟨fun e => key h.1 h.2.1 h.2.2.1 h.2.2.2 e, fun es => keys h.1 h.2.1 h.2.2.1 h.2.2.2 es⟩
  refine ⟨?_, ?_, ?_, ?_⟩
  · intro rt f op children ih h
    cases hf : f.has_side_effects
    · simp [Expression.hasSideEffectCall, hf] at h
      simp [BoundFunctionExpression.IsFoldable, hf, ih h]
    · simp [BoundFunctionExpression.IsFoldable, hf]
  · intro b id h
    simp [Expression.hasSideEffectCall] at h
  · intro h
    simp [Expression.anyHasSideEffectCall] at h
  · intro c cs ihc ihcs h
    simp only [Expression.anyHasSideEffectCall, Bool.or_eq_true] at h
    rcases h with h | h
    · simp [Expression.IsFoldable, ihc h]
    · simp [Expression.IsFoldable, ihcs h]

/-- A tree that calls a function with side effects holds a call with side
effects. -/
theorem Expression.calls_hasSideEffectCall (f : ScalarFunction)
    (hf : f.has_side_effects = true) :
    (∀ e : Expression, Expression.calls f e = true →
      Expression.hasSideEffectCall e = true) ∧
    (∀ es : List Expression, Expression.anyCalls f es = true →
      Expression.anyHasSideEffectCall es = true) := by
  have key := @Expression.rec
    (fun e => Expression.calls f e = true → Expression.hasSideEffectCall e = true)
    (fun es => Expression.anyCalls f es = true → Expression.anyHasSideEffectCall es = true)
  have keys := @Expression.rec_1
    (fun e => Expression.calls f e = true → Expression.hasSideEffectCall e = true)
    (fun es => Expression.anyCalls f es = true → Expression.anyHasSideEffectCall es = true)
  suffices h : _ ∧ _ ∧ _ ∧ _ from
    ⟨fun e => key h.1 h.2.1 h.2.2.1 h.2.2.2 e, fun es => keys h.1 h.2.1 h.2.2.1 h.2.2.2 es⟩
  refine ⟨?_, ?_, ?_, ?_⟩
  · intro rt g op children ih h
    simp only [Expression.calls, Bool.or_eq_true, decide_eq_true_eq] at h
    rcases h with h | h
    · subst h
      simp [Expression.hasSideEffectCall, hf]
    · simp [Expression.hasSideEffectCall, ih h]
  · intro b id h
    simp [Expression.calls] at h
  · intro h
    simp [Expression.anyCalls] at h
  · intro c cs ihc ihcs h
    simp only [Expression.anyCalls, Bool.or_eq_true] at h
    rcases h with h | h
    · simp [Expression.anyHasSideEffectCall, ihc h]
    · simp [Expression.anyHasSideEffectCall, ihcs h]

/-- C2: functions with side effects are never folded. A tree that holds, at any
depth, a call to a function declaring side effects is not foldable; `random` is
registered with `has_side_effects = true`; so no tree that holds a call to
`random` is foldable. -/
theorem side_effects_never_folded (e : Expression) :
    (Expression.hasSideEffectCall e = true →
      BoundFunctionExpression.IsFoldable e = false) ∧
    Random.RegisterFunction.has_side_effects = true ∧
    (Expression.calls Random.RegisterFunction e = true →
      BoundFunctionExpression.IsFoldable e = false) :=
  ⟨Expression.hasSideEffectCall_not_foldable.1 e, rfl, fun h =>
    Expression.hasSideEffectCall_not_foldable.1 e
      ((Expression.calls_hasSideEffectCall Random.RegisterFunction rfl).1 e h)⟩

/-- C2 at `1 + (random() + 2)`: the tree calls `random` two levels down and is
not foldable. -/
theorem side_effects_never_folded_witness :
    Expression.calls Random.RegisterFunction exampleRandomTree = true ∧
    BoundFunctionExpression.IsFoldable exampleRandomTree = false :=
  ⟨by decide, (side_effects_never_folded exampleRandomTree).2.2 (by decide)⟩

/-- C3 as stated fails without a chunk on a result vector that comes with a
selection vector: `random_function` assigns the selection vector only under
`if (exec.chunk)`, so the result has count 1 and keeps the selection, and the
one draw is stored at position `sel[0] = 7`, position 0 staying unwritten. -/
theorem random_function_spec_counterexample :
    (random_function exampleExecNoChunk exampleInfo exampleSelectedVector).1.count = 1 ∧
    (random_function exampleExecNoChunk exampleInfo exampleSelectedVector).1.sel_vector ≠
      none ∧
    (random_function exampleExecNoChunk exampleInfo exampleSelectedVector).1.index 0 = 7 ∧
    (random_function exampleExecNoChunk exampleInfo exampleSelectedVector).1.data 0 = none ∧
    (random_function exampleExecNoChunk exampleInfo exampleSelectedVector).1.data 7 =
      some 50 := by
  refine ⟨rfl, ?_, rfl, rfl, rfl⟩
  simp [random_function, exampleExecNoChunk, exampleSelectedVector, Vector.Initialize]

/-- A digit character has the value of the digit it writes. -/
theorem digitValue_digitChar (n : Nat) (h : n < 10) :
    digitValue (Nat.digitChar n) = some n := by
  interval_cases n <;> rfl

/-- Reading back the two-digit rendering of a number below 100. -/
theorem digitsValue_twoDigits (n : Nat) (h : n < 100) :
    digitsValue (twoDigits n) = some n := by
  have h1 := digitValue_digitChar (n / 10 % 10) (Nat.mod_lt _ (by decide))
  have h0 := digitValue_digitChar (n % 10) (Nat.mod_lt _ (by decide))
  simp only [twoDigits, digitsValue, h1, h0, List.length_cons, List.length_nil]
  congr 1
  omega

/-- Reading back the four-digit rendering of a number below 10000. -/
theorem digitsValue_fourDigits (n : Nat) (h : n < 10000) :
    digitsValue (fourDigits n) = some n := by
  have h3 := digitValue_digitChar (n / 1000 % 10) (Nat.mod_lt _ (by decide))
  have h2 := digitValue_digitChar (n / 100 % 10) (Nat.mod_lt _ (by decide))
  have h1 := digitValue_digitChar (n / 10 % 10) (Nat.mod_lt _ (by decide))
  have h0 := digitValue_digitChar (n % 10) (Nat.mod_lt _ (by decide))
  simp only [fourDigits, digitsValue, h3, h2, h1, h0, List.length_cons, List.length_nil]
  congr 1
  omega

/-- Acceptance of a full timestamp text: the separators must be `-`, `-`,
space, `:`, `:`, the date must be a calendar date and the time in range. -/
theorem Timestamp.FromChars_timestampText (year month day hour min sec : Nat)
    (p q b r t : Char) (hy : year < 10000) (hm : month < 100) (hd : day < 100)
    (hh : hour < 100) (hn : min < 100) (hs : sec < 100) :
    succeeded (Timestamp.FromChars (timestampText year month day hour min sec p q b r t)) = true ↔
      (p = '-' ∧ q = '-' ∧ b = ' ' ∧ r = ':' ∧ t = ':' ∧
        Date.IsValidDay year month day = true ∧ Time.IsValidTime hour min sec = true) := by
  have ey := digitsValue_fourDigits year hy
  have em := digitsValue_twoDigits month hm
  have ed := digitsValue_twoDigits day hd
  have eh := digitsValue_twoDigits hour hh
  have en := digitsValue_twoDigits min hn
  have es := digitsValue_twoDigits sec hs
  simp only [fourDigits] at ey
  simp only [twoDigits] at em ed eh en es
  simp only [timestampText, fourDigits, twoDigits, List.cons_append, List.nil_append,
    Timestamp.FromChars, ey, em, ed, eh, en, es]
  split_ifs with hc
  · simp only [succeeded, true_iff]
    exact hc
  · simp only [succeeded, Bool.false_eq_true, false_iff]
    exact hc

/-- February 29 is a calendar date exactly in the Gregorian leap years. -/
theorem Date.IsValidDay_feb29 (year : Nat) :
    Date.IsValidDay year 2 29 = true ↔
      (year % 4 = 0 ∧ (year % 100 ≠ 0 ∨ year % 400 = 0)) := by
  cases hl : Date.IsLeapYear year
  · have hl2 := hl
    simp only [Date.IsLeapYear, Bool.and_eq_false_iff, Bool.or_eq_false_iff, beq_eq_false_iff_ne,
      bne_eq_false_iff_eq, ne_eq] at hl2
    simp only [Date.IsValidDay, Date.MonthDays, hl]
    constructor
    · intro h
      simp at h
    · intro h
      omega
  · have hl2 := hl
    simp only [Date.IsLeapYear, Bool.and_eq_true, Bool.or_eq_true, beq_iff_eq, bne_iff_ne,
      ne_eq] at hl2
    simp only [Date.IsValidDay, Date.MonthDays, hl]
    constructor
    · intro _
      exact hl2
    · intro _
      decide

/-- C4: timestamp parsing validates the calendar date by the Gregorian rule.
For every year the format can write, `year-02-29 00:00:00` is accepted exactly
when the year is divisible by 4 and not by 100 unless by 400; a timestamp text
whose month is outside 1..12, whose day is outside 1..(length of the month), or
whose separators are not `-` and `:` is rejected; and the listed dates are
accepted or rejected as stated, alone and followed by `00:00:00`. -/
theorem timestamp_parsing_validates_date (year month day hour min sec : Nat)
    (p q b r t : Char) (hy : year < 10000) (hm : month < 100) (hd : day < 100)
    (hh : hour < 100) (hn : min < 100) (hs : sec < 100) :
    (succeeded (Timestamp.FromString
        (String.mk (timestampText year 2 29 0 0 0 '-' '-' ' ' ':' ':'))) = true ↔
      (year % 4 = 0 ∧ (year % 100 ≠ 0 ∨ year % 400 = 0))) ∧
    ((month < 1 ∨ 12 < month ∨ day < 1 ∨ Date.MonthDays year month < day ∨
        p ≠ '-' ∨ q ≠ '-' ∨ r ≠ ':' ∨ t ≠ ':') →
      Timestamp.FromString (String.mk (timestampText year month day hour min sec p q b r t)) =
        .error .InvalidInput) ∧
    String.mk (timestampText 1992 2 29 0 0 0 '-' '-' ' ' ':' ':') = "1992-02-29 00:00:00" ∧
    (succeeded (Timestamp.FromString "1992-02-29") = true ∧
      succeeded (Timestamp.FromString "2000-02-29") = true ∧
      succeeded (Timestamp.FromString "1900-02-29") = false ∧
      succeeded (Timestamp.FromString "1993-02-29") = false ∧
      succeeded (Timestamp.FromString "1993-20-14") = false ∧
      succeeded (Timestamp.FromString "1993-08-99") = false) ∧
    (succeeded (Timestamp.FromString "1992-02-29 00:00:00") = true ∧
      succeeded (Timestamp.FromString "2000-02-29 00:00:00") = true ∧
      succeeded (Timestamp.FromString "1900-02-29 00:00:00") = false ∧
      succeeded (Timestamp.FromString "1993-02-29 00:00:00") = false ∧
      succeeded (Timestamp.FromString "1993-20-14 00:00:00") = false ∧
      succeeded (Timestamp.FromString "1993-08-99 00:00:00") = false) := by
  refine ⟨?_, ?_, by decide, by decide, by decide⟩
  · have h := Timestamp.FromChars_timestampText year 2 29 0 0 0 '-' '-' ' ' ':' ':' hy
      (by decide) (by decide) (by decide) (by decide) (by decide)
    have hv := Date.IsValidDay_feb29 year
    have ht : Time.IsValidTime 0 0 0 = true := by decide
    show succeeded (Timestamp.FromChars (timestampText year 2 29 0 0 0 '-' '-' ' ' ':' ':')) = true ↔ _
    rw [h, ← hv]
    simp only [ht, and_true, true_and]
  · intro hbad
    have h := Timestamp.FromChars_timestampText year month day hour min sec p q b r t
      hy hm hd hh hn hs
    show Timestamp.FromChars (timestampText year month day hour min sec p q b r t) = _
    cases hres : Timestamp.FromChars (timestampText year month day hour min sec p q b r t) with
    | error e => cases e; rfl
    | ok ts =>
      rw [hres] at h
      have hok := h.mp rfl
      obtain ⟨hp, hq, _, hr, ht, hvd, _⟩ := hok
      simp only [Date.IsValidDay, Bool.and_eq_true, decide_eq_true_eq] at hvd
      obtain ⟨⟨⟨h1, h2⟩, h3⟩, h4⟩ := hvd
      rcases hbad with hb | hb | hb | hb | hb | hb | hb | hb
      · omega
      · omega
      · omega
      · omega
      · exact absurd hp hb
      · exact absurd hq hb
      · exact absurd hr hb
      · exact absurd ht hb

/-- C4 at the text `1993-02-29 00;00;00`: the day is beyond February 1993 and
the time separators are semicolons, so the text is rejected. -/
theorem timestamp_parsing_validates_date_witness :
    Timestamp.FromString (String.mk (timestampText 1993 2 29 0 0 0 '-' '-' ' ' ';' ';')) =
      .error .InvalidInput :=
  (timestamp_parsing_validates_date 1993 2 29 0 0 0 '-' '-' ' ' ';' ';'
    (by decide) (by decide) (by decide) (by decide) (by decide) (by decide)).2.1
    (Or.inr (Or.inr (Or.inr (Or.inl (by decide)))))

/-- C6: for every table referenced by a live prepared statement of any
connection, `DROP TABLE` without CASCADE fails with DependencyExists and leaves
the catalog, table and statement included, as it was; `DROP TABLE ... CASCADE`
succeeds, removes the table and every prepared statement that references it and
keeps the other statements; and once the statements that reference the table
have been deallocated, a plain `DROP TABLE` succeeds and removes the table. -/
theorem drop_table_dependency_policy (catalog : Catalog) (table : String)
    (p : PreparedStatementEntry) (ht : table ∈ catalog.tables)
    (hp : p ∈ catalog.prepared) (hdep : table ∈ p.tables) :
    (catalog.DropTable table false = .error .DependencyExists ∧
      catalog.after (catalog.DropTable table false) = catalog) ∧
    (∃ next, catalog.DropTable table true = .ok next ∧ table ∉ next.tables ∧
      p ∉ next.prepared ∧ (∀ q ∈ next.prepared, table ∉ q.tables) ∧
      (∀ q ∈ catalog.prepared, table ∉ q.tables → q ∈ next.prepared) ∧
      (∀ t ∈ catalog.tables, t ≠ table → t ∈ next.tables)) ∧
    (p ∉ (catalog.Deallocate p.connection p.name).prepared ∧
      ((∀ q ∈ catalog.prepared, table ∈ q.tables →
          q.connection = p.connection ∧ q.name = p.name) →
        ∃ next, (catalog.Deallocate p.connection p.name).DropTable table false = .ok next ∧
          table ∉ next.tables)) := by
  have hdeps : catalog.dependents table ≠ [] := by
    intro h
    have hmem : p ∈ catalog.dependents table := by
      simp only [Catalog.dependents, List.mem_filter, decide_eq_true_eq]
      exact ⟨hp, hdep⟩
    rw [h] at hmem
    cases hmem
  refine ⟨?_, ?_, ?_, ?_⟩
  · have h : catalog.DropTable table false = .error .DependencyExists := by
      simp [Catalog.DropTable, ht, hdeps]
    exact ⟨h, by rw [h]; rfl⟩
  · have hok : catalog.DropTable table true =
        .ok { tables := catalog.tables.filter (fun t => decide (t ≠ table)),
              prepared := catalog.prepared.filter (fun p => decide (table ∉ p.tables)) } := by
      simp only [Catalog.DropTable, ht, not_true_eq_false, if_false, if_true]
    refine ⟨_, hok, ?_, ?_, ?_, ?_, ?_⟩
    · simp
    · simp [hdep]
    · intro q hq
      simp only [List.mem_filter, decide_eq_true_eq] at hq
      exact hq.2
    · intro q hq hnot
      simp only [List.mem_filter, decide_eq_true_eq]
      exact ⟨hq, hnot⟩
    · intro t htm hne
      simp only [List.mem_filter, decide_eq_true_eq]
      exact ⟨htm, hne⟩
  · simp [Catalog.Deallocate]
  · intro honly
    have hnone : (catalog.Deallocate p.connection p.name).dependents table = [] := by
      simp only [Catalog.dependents, Catalog.Deallocate, List.filter_filter,
        List.filter_eq_nil_iff]
      intro q hq
      by_cases hq2 : table ∈ q.tables
      · have := honly q hq hq2
        simp [this.1, this.2]
      · simp [hq2]
    have ht2 : table ∈ (catalog.Deallocate p.connection p.name).tables := ht
    have hok : (catalog.Deallocate p.connection p.name).DropTable table false =
        .ok { catalog.Deallocate p.connection p.name with
              tables := (catalog.Deallocate p.connection p.name).tables.filter
                (fun t => decide (t ≠ table)) } := by
      simp only [Catalog.DropTable, ht2, not_true_eq_false, if_false, hnone, ne_eq,
        Bool.false_eq_true]
    refine ⟨_, hok, ?_⟩
    simp

/-- C6 on the test "PREPARE and DROPping tables": with `p1` of connection 2
prepared on table `a`, a plain drop fails, a cascading drop empties the
catalog, and after `DEALLOCATE p1` the plain drop succeeds. -/
theorem drop_table_dependency_policy_witness :
    exampleCatalog.DropTable "a" false = .error .DependencyExists ∧
    exampleCatalog.after (exampleCatalog.DropTable "a" false) = exampleCatalog ∧
    exampleCatalog.DropTable "a" true = .ok { tables := [], prepared := [] } ∧
    (exampleCatalog.Deallocate 2 "p1").DropTable "a" false =
      .ok { tables := [], prepared := [] } :=
  have h := drop_table_dependency_policy exampleCatalog "a"
    { connection := 2, name := "p1", tables := ["a"] } (by decide) (by decide) (by decide)
  ⟨h.1.1, h.1.2, rfl, rfl⟩

/-- Casting a list of values succeeds exactly when the cast at every position
succeeds. -/
theorem CastValues_succeeded_iff (cast : Value → SQLType → Except ConversionError Value)
    (types : List SQLType) :
    ∀ args : List Value, succeeded (CastValues cast types args) = true ↔
      ∀ (k : Nat) (v : Value) (t : SQLType), args[k]? = some v → types[k]? = some t → succeeded (cast v t) = true := by
  induction types with
  | nil =>
    intro args
    simp [CastValues, succeeded]
  | cons type types ih =>
    intro args
    cases args with
    | nil => simp [CastValues, succeeded]
    | cons value values =>
      simp only [CastValues]
      constructor
      · intro h k v t hv ht
        cases hc : cast value type with
        | error e => simp [hc, succeeded] at h
        | ok w =>
          cases hr : CastValues cast types values with
          | error e => simp [hc, hr, succeeded] at h
          | ok ws =>
            cases k with
            | zero =>
              simp only [List.getElem?_cons_zero, Option.some.injEq] at hv ht
              subst hv ht
              rw [hc]
              rfl
            | succ k =>
              simp only [List.getElem?_cons_succ] at hv ht
              exact (ih values).mp (by rw [hr]; rfl) k v t hv ht
      · intro h
        have h0 := h 0 value type (List.getElem?_cons_zero) (List.getElem?_cons_zero)
        have hrest := (ih values).mpr (fun k v t hv ht =>
          h (k + 1) v t (by rw [List.getElem?_cons_succ]; exact hv)
            (by rw [List.getElem?_cons_succ]; exact ht))
        cases hc : cast value type with
        | error e => simp [hc, succeeded] at h0
        | ok w =>
          cases hr : CastValues cast types values with
          | error e => simp [hr, succeeded] at hrest
          | ok ws => rfl

/-- C8: `EXECUTE` of a prepared statement that declares `n` parameters succeeds
with `m` arguments exactly when `m = n` and every argument can be cast to the
resolved type of its parameter; with fewer or with more arguments it fails on
the count, and with an argument that cannot be cast it fails. On the statement
`s1` of the tests, `(43, 'asdf')` is accepted and `(43)`, `(43, 'asdf', 42)`
and `('asdf', 'asdf')` are rejected. -/
theorem execute_requires_castable_arguments
    (cast : Value → SQLType → Except ConversionError Value)
    (statement : PreparedStatement) (args : List Value) :
    (succeeded (statement.Execute cast args) = true ↔
      (args.length = statement.types.length ∧
        ∀ (k : Nat) (v : Value) (t : SQLType), args[k]? = some v → statement.types[k]? = some t →
          succeeded (cast v t) = true)) ∧
    (args.length < statement.types.length →
      statement.Execute cast args = .error .ParameterCount) ∧
    (statement.types.length < args.length →
      statement.Execute cast args = .error .ParameterCount) ∧
    (∀ (k : Nat) (v : Value) (t : SQLType), args[k]? = some v → statement.types[k]? = some t →
      succeeded (cast v t) = false → succeeded (statement.Execute cast args) = false) ∧
    (exampleStatement.Execute TryCast [.integer .INTEGER 43, .varchar "asdf"] =
        .ok [.integer .INTEGER 43, .varchar "asdf"] ∧
      exampleStatement.Execute TryCast [.integer .INTEGER 43] = .error .ParameterCount ∧
      exampleStatement.Execute TryCast
        [.integer .INTEGER 43, .varchar "asdf", .integer .INTEGER 42] = .error .ParameterCount ∧
      exampleStatement.Execute TryCast [.varchar "asdf", .varchar "asdf"] =
        .error (.Conversion .InvalidFormat)) := by
  have hiff : succeeded (statement.Execute cast args) = true ↔
      (args.length = statement.types.length ∧
        ∀ (k : Nat) (v : Value) (t : SQLType), args[k]? = some v → statement.types[k]? = some t →
          succeeded (cast v t) = true) := by
    rw [← CastValues_succeeded_iff]
    unfold PreparedStatement.Execute
    by_cases hlen : args.length = statement.types.length
    · simp only [hlen, ne_eq, not_true_eq_false, if_false, true_and]
      cases CastValues cast statement.types args <;> simp [succeeded]
    · simp [hlen, succeeded]
  refine ⟨hiff, ?_, ?_, ?_, by decide⟩
  · intro h
    have hne : args.length ≠ statement.types.length := by omega
    simp [PreparedStatement.Execute, hne]
  · intro h
    have hne : args.length ≠ statement.types.length := by omega
    simp [PreparedStatement.Execute, hne]
  · intro k v t hv ht hbad
    cases hs : succeeded (statement.Execute cast args) with
    | false => rfl
    | true =>
      have := (hiff.mp hs).2 k v t hv ht
      rw [hbad] at this
      cases this

/-- C8 on `EXECUTE s1('asdf', 'asdf')`: the first argument cannot be cast to
INTEGER, the type of `$1`, so the execution fails. -/
theorem execute_requires_castable_arguments_witness :
    succeeded (TryCast (.varchar "asdf") .INTEGER) = false ∧
    succeeded (exampleStatement.Execute TryCast [.varchar "asdf", .varchar "asdf"]) = false :=
  ⟨by decide,
    (execute_requires_castable_arguments TryCast exampleStatement
      [.varchar "asdf", .varchar "asdf"]).2.2.2.1 0 (.varchar "asdf") .INTEGER rfl rfl
      (by decide)⟩

/-- Casting a whole number to TINYINT keeps it when it is in -128..127 and
fails with OutOfRange otherwise. -/
theorem TryCast_tinyint (type : SQLType) (v : Int) :
    TryCast (.integer type v) .TINYINT =
      if -128 ≤ v ∧ v ≤ 127 then .ok (.integer .TINYINT v) else .error .OutOfRange := rfl

/-- C9: inserting a number outside the TINYINT range -128..127 into a TINYINT
column fails with an out-of-range conversion error, for a literal `INSERT` and
for `EXECUTE` of a prepared `INSERT INTO t VALUES ($1)` with that argument, and
no row is appended; an in-range argument is cast to TINYINT and appended as a
new row. In particular `10000` is rejected both ways. -/
theorem tinyint_insert_out_of_range (rows : List (List Value)) (type : SQLType) (v : Int) :
    ((v < -128 ∨ 127 < v) →
      PhysicalInsert.GetChunkInternal { columns := [.TINYINT], rows := rows }
          [[.integer type v]] = .error .OutOfRange ∧
        ExecutePreparedInsert { columns := [.TINYINT], rows := rows } [.integer type v] =
          .error (.Conversion .OutOfRange)) ∧
    ((-128 ≤ v ∧ v ≤ 127) →
      PhysicalInsert.GetChunkInternal { columns := [.TINYINT], rows := rows }
          [[.integer type v]] =
          .ok { columns := [.TINYINT], rows := rows ++ [[.integer .TINYINT v]] } ∧
        ExecutePreparedInsert { columns := [.TINYINT], rows := rows } [.integer type v] =
          .ok { columns := [.TINYINT], rows := rows ++ [[.integer .TINYINT v]] }) ∧
    (PhysicalInsert.GetChunkInternal { columns := [.TINYINT], rows := [] }
        [[.integer .INTEGER 10000]] = .error .OutOfRange ∧
      ExecutePreparedInsert { columns := [.TINYINT], rows := [] } [.integer .INTEGER 10000] =
        .error (.Conversion .OutOfRange) ∧
      Prepare (.insert [.TINYINT] [[.parameter 1]]) = .ok [(1, .TINYINT)]) := by
  refine ⟨?_, ?_, by decide, by decide, rfl⟩
  · intro hout
    have hc : ¬(-128 ≤ v ∧ v ≤ 127) := by omega
    have hcast : TryCast (.integer type v) .TINYINT = .error .OutOfRange := by
      rw [TryCast_tinyint, if_neg hc]
    constructor
    · simp only [PhysicalInsert.GetChunkInternal, CastRows, CastValues, hcast]
    · simp only [ExecutePreparedInsert, PreparedStatement.Execute, CastValues, hcast,
        List.length_cons, List.length_nil, ne_eq, not_true_eq_false, if_false]
  · intro hin
    have hcast : TryCast (.integer type v) .TINYINT = .ok (.integer .TINYINT v) := by
      rw [TryCast_tinyint, if_pos hin]
    have hcast2 : TryCast (.integer .TINYINT v) .TINYINT = .ok (.integer .TINYINT v) := by
      rw [TryCast_tinyint, if_pos hin]
    constructor
    · simp only [PhysicalInsert.GetChunkInternal, CastRows, CastValues, hcast]
    · simp only [ExecutePreparedInsert, PreparedStatement.Execute, CastValues, hcast, hcast2,
        PhysicalInsert.GetChunkInternal, CastRows,
        List.length_cons, List.length_nil, ne_eq, not_true_eq_false, if_false]

/-- C9 on the test "PREPARE for INSERT": into the TINYINT column of a table
holding the row 42, `10000` is rejected as out of range and `41` is appended. -/
theorem tinyint_insert_out_of_range_witness :
    ExecutePreparedInsert { columns := [.TINYINT], rows := [[.integer .TINYINT 42]] }
        [.integer .INTEGER 10000] = .error (.Conversion .OutOfRange) ∧
    ExecutePreparedInsert { columns := [.TINYINT], rows := [[.integer .TINYINT 42]] }
        [.integer .INTEGER 41] =
      .ok { columns := [.TINYINT], rows := [[.integer .TINYINT 42], [.integer .TINYINT 41]] } :=
  ⟨((tinyint_insert_out_of_range [[.integer .TINYINT 42]] .INTEGER 10000).1
      (Or.inr (by decide))).2,
    ((tinyint_insert_out_of_range [[.integer .TINYINT 42]] .INTEGER 41).2.1
      ⟨by decide, by decide⟩).2⟩

/-- Length of a filtered list whose head is dropped. -/
theorem filter_length_cons_false {α : Type} (p : α → Bool) (a : α) (l : List α)
    (h : p a = false) : ((a :: l).filter p).length = (l.filter p).length := by
  simp [List.filter_cons, h]

/-- Length of a filtered list whose head is kept. -/
theorem filter_length_cons_true {α : Type} (p : α → Bool) (a : α) (l : List α)
    (h : p a = true) : ((a :: l).filter p).length = (l.filter p).length + 1 := by
  simp [List.filter_cons, h]

/-- The line written when a file cannot be opened is not the last line of the
usage text. -/
theorem could_not_open_not_usage (stderr : List String) (name : String) :
    ¬ ∃ before, stderr ++ ["Could not open file " ++ name ++ " for writing"] =
      before ++ help_text := by
  intro ⟨before, h⟩
  have h2 := congrArg List.getLast? h
  simp only [help_text] at h2
  simp at h2
  have h3 := congrArg String.data h2
  simp only [String.data_append] at h3
  have h4 := congrArg List.head? h3
  simp at h4

/-- On an argument list that reaches the usage text (`reaches_usage`, spelled
out), the parse ends with the usage text and exit code 1. -/
theorem parse_arguments_loop_usage (env : Environment) (benchmarks : List Benchmark)
    (before : List String) :
    ∀ (u : String) (post : List String) (configuration : BenchmarkConfiguration)
      (state : Process),
      "--list" ∉ before →
      (∀ arg ∈ before, is_file_argument env arg = true →
        ∀ a name, env.Split arg '=' = [a, name] → env.open_file name = true) →
      (before.filter (opens_out_file env)).length + state.out_file.toList.length ≤ 1 →
      (before.filter (opens_log_file env)).length + state.log_file.toList.length ≤ 1 →
      (is_malformed_file_argument env u = true ∨
        (is_pattern_argument env u = true ∧
          (configuration.name_pattern ≠ "" ∨
            ∃ p ∈ before, is_pattern_argument env p = true ∧ p ≠ ""))) →
      exits_with_usage state
        (parse_arguments_loop env benchmarks (before ++ u :: post) configuration state) := by
  induction before with
  | nil =>
    intro u post configuration state _ _ _ _ hu
    rw [List.nil_append]
    unfold parse_arguments_loop
    rcases hu with hm | ⟨hp, hset⟩
    · simp only [is_malformed_file_argument, is_file_argument, Bool.and_eq_true,
        decide_eq_true_eq] at hm
      obtain ⟨⟨⟨h1, h2⟩, h3⟩, h4⟩ := hm
      rw [if_neg h1, if_neg h2, if_pos h3]
      split
      · rename_i a name hsplit
        exact absurd (by rw [hsplit]; rfl) h4
      · exact ⟨print_help state, rfl, ⟨state.stderr, rfl⟩, rfl, rfl⟩
    · simp only [is_pattern_argument, Bool.and_eq_true, decide_eq_true_eq,
        Bool.not_eq_true'] at hp
      obtain ⟨⟨h1, h2⟩, h3⟩ := hp
      have hset2 : configuration.name_pattern ≠ "" := by
        rcases hset with h | ⟨p, hp, _⟩
        · exact h
        · cases hp
      have h3n : ¬ (env.StartsWith u "--out=" || env.StartsWith u "--log=") = true := by
        rw [h3]
        exact Bool.false_ne_true
      rw [if_neg h1, if_neg h2, if_neg h3n, if_pos hset2]
      exact ⟨_, rfl, ⟨state.stderr ++ ["Only one benchmark can be specified."], rfl⟩, rfl, rfl⟩
  | cons arg rest ih =>
    intro u post configuration state hlist hopen hout hlog hu
    have hne : arg ≠ "--list" := fun h => hlist (h ▸ List.mem_cons_self _ _)
    have hlist2 : "--list" ∉ rest := fun h => hlist (List.mem_cons_of_mem _ h)
    have hopen2 : ∀ x ∈ rest, is_file_argument env x = true →
        ∀ a name, env.Split x '=' = [a, name] → env.open_file name = true :=
      fun x hx => hopen x (List.mem_cons_of_mem _ hx)
    rw [List.cons_append]
    unfold parse_arguments_loop
    rw [if_neg hne]
    by_cases hinfo : arg = "--info"
    · rw [if_pos hinfo]
      have hno : opens_out_file env arg = false := by
        simp [opens_out_file, is_file_argument, hinfo]
      have hnl : opens_log_file env arg = false := by
        simp [opens_log_file, is_file_argument, hinfo]
      rw [filter_length_cons_false _ arg rest hno] at hout
      rw [filter_length_cons_false _ arg rest hnl] at hlog
      refine ih u post _ state hlist2 hopen2 hout hlog ?_
      rcases hu with hm | ⟨hp, hset⟩
      · exact Or.inl hm
      · refine Or.inr ⟨hp, ?_⟩
        rcases hset with h | ⟨p, hpm, hpp, hpe⟩
        · exact Or.inl h
        · rcases List.mem_cons.mp hpm with h | h
          · subst h
            simp [is_pattern_argument, hinfo] at hpp
          · exact Or.inr ⟨p, h, hpp, hpe⟩
    · rw [if_neg hinfo]
      by_cases hfile : (env.StartsWith arg "--out=" || env.StartsWith arg "--log=") = true
      · rw [if_pos hfile]
        have hfa : is_file_argument env arg = true := by
          simp only [is_file_argument, Bool.and_eq_true, decide_eq_true_eq]
          exact ⟨⟨hne, hinfo⟩, hfile⟩
        have hu2 : is_malformed_file_argument env u = true ∨
            (is_pattern_argument env u = true ∧
              (configuration.name_pattern ≠ "" ∨
                ∃ p ∈ rest, is_pattern_argument env p = true ∧ p ≠ "")) := by
          rcases hu with hm | ⟨hp, hset⟩
          · exact Or.inl hm
          · refine Or.inr ⟨hp, ?_⟩
            rcases hset with h | ⟨p, hpm, hpp, hpe⟩
            · exact Or.inl h
            · rcases List.mem_cons.mp hpm with h | h
              · subst h
                simp [is_pattern_argument, hfile] at hpp
              · exact Or.inr ⟨p, h, hpp, hpe⟩
        split
        · rename_i a name hsplit
          have hgood := hopen arg (List.mem_cons_self _ _) hfa a name hsplit
          have hlen : (env.Split arg '=').length = 2 := by rw [hsplit]; rfl
          by_cases hout_arg : env.StartsWith arg "--out=" = true
          · rw [if_pos hout_arg]
            have ho : opens_out_file env arg = true := by
              simp [opens_out_file, hfa, hout_arg, hlen]
            have hl : opens_log_file env arg = false := by
              simp [opens_log_file, hout_arg]
            rw [filter_length_cons_true _ arg rest ho] at hout
            rw [filter_length_cons_false _ arg rest hl] at hlog
            have hnone : state.out_file = none := by
              cases hs : state.out_file with
              | none => rfl
              | some f =>
                rw [hs] at hout
                simp at hout
            have hopened : ofstream_open env state.out_file name = (some name, true) := by
              simp [ofstream_open, hnone, hgood]
            rw [hopened]
            refine ih u post configuration { state with out_file := some name } hlist2 hopen2
              ?_ hlog hu2
            simp only [Option.toList_some, List.length_singleton]
            omega
          · rw [if_neg hout_arg]
            have hout_arg2 : env.StartsWith arg "--out=" = false := by
              simpa using hout_arg
            have ho : opens_out_file env arg = false := by
              simp [opens_out_file, hout_arg2]
            have hl : opens_log_file env arg = true := by
              simp [opens_log_file, hfa, hout_arg2, hlen]
            rw [filter_length_cons_false _ arg rest ho] at hout
            rw [filter_length_cons_true _ arg rest hl] at hlog
            have hnone : state.log_file = none := by
              cases hs : state.log_file with
              | none => rfl
              | some f =>
                rw [hs] at hlog
                simp at hlog
            have hopened : ofstream_open env state.log_file name = (some name, true) := by
              simp [ofstream_open, hnone, hgood]
            rw [hopened]
            refine ih u post configuration { state with log_file := some name } hlist2 hopen2
              hout ?_ hu2
            simp only [Option.toList_some, List.length_singleton]
            omega
        · exact ⟨print_help state, rfl, ⟨state.stderr, rfl⟩, rfl, rfl⟩
      · rw [if_neg hfile]
        by_cases hset0 : configuration.name_pattern ≠ ""
        · rw [if_pos hset0]
          exact ⟨_, rfl, ⟨state.stderr ++ ["Only one benchmark can be specified."], rfl⟩,
            rfl, rfl⟩
        · rw [if_neg hset0]
          have hfile2 : (env.StartsWith arg "--out=" || env.StartsWith arg "--log=") = false := by
            simpa using hfile
          have hno : opens_out_file env arg = false := by
            simp [opens_out_file, is_file_argument, hfile2]
          have hnl : opens_log_file env arg = false := by
            simp [opens_log_file, is_file_argument, hfile2]
          rw [filter_length_cons_false _ arg rest hno] at hout
          rw [filter_length_cons_false _ arg rest hnl] at hlog
          refine ih u post _ state hlist2 hopen2 hout hlog ?_
          rcases hu with hm | ⟨hp, hset⟩
          · exact Or.inl hm
          · refine Or.inr ⟨hp, ?_⟩
            rcases hset with h | ⟨p, hpm, hpp, hpe⟩
            · exact absurd h hset0
            · rcases List.mem_cons.mp hpm with h | h
              · subst h
                exact Or.inl hpe
              · exact Or.inr ⟨p, h, hpp, hpe⟩

/-- Whenever the parse ends with the usage text and exit code 1, the argument
list reaches the usage text in the sense of `reaches_usage`. -/
theorem parse_arguments_loop_usage_only (env : Environment) (benchmarks : List Benchmark)
    (args : List String) :
    ∀ (configuration : BenchmarkConfiguration) (state : Process),
      exits_with_usage state (parse_arguments_loop env benchmarks args configuration state) →
      reaches_usage env configuration state args := by
  induction args with
  | nil =>
    intro configuration state h
    obtain ⟨final, hf, _⟩ := h
    simp [parse_arguments_loop] at hf
  | cons arg rest ih =>
    intro configuration state h
    unfold parse_arguments_loop at h
    by_cases hne : arg = "--list"
    · rw [if_pos hne] at h
      obtain ⟨final, hf, _⟩ := h
      simp at hf
    · rw [if_neg hne] at h
      by_cases hinfo : arg = "--info"
      · rw [if_pos hinfo] at h
        obtain ⟨before, u, post, hargs, hlist, hopen, hout, hlog, hu⟩ := ih _ state h
        have hnf : is_file_argument env arg = false := by
          simp [is_file_argument, hinfo]
        have hno : opens_out_file env arg = false := by simp [opens_out_file, hnf]
        have hnl : opens_log_file env arg = false := by simp [opens_log_file, hnf]
        refine ⟨arg :: before, u, post, by rw [hargs]; rfl, ?_, ?_, ?_, ?_, ?_⟩
        · intro hm
          rcases List.mem_cons.mp hm with h1 | h1
          · exact hne h1.symm
          · exact hlist h1
        · intro x hx hxf
          rcases List.mem_cons.mp hx with h1 | h1
          · rw [h1, hnf] at hxf
            cases hxf
          · exact hopen x h1 hxf
        · rw [filter_length_cons_false _ arg before hno]
          exact hout
        · rw [filter_length_cons_false _ arg before hnl]
          exact hlog
        · rcases hu with hm | ⟨hp, hset⟩
          · exact Or.inl hm
          · refine Or.inr ⟨hp, ?_⟩
            rcases hset with h1 | ⟨p, hpm, hpp, hpe⟩
            · exact Or.inl h1
            · exact Or.inr ⟨p, List.mem_cons_of_mem _ hpm, hpp, hpe⟩
      · rw [if_neg hinfo] at h
        by_cases hfile : (env.StartsWith arg "--out=" || env.StartsWith arg "--log=") = true
        · rw [if_pos hfile] at h
          have hfa : is_file_argument env arg = true := by
            simp only [is_file_argument, Bool.and_eq_true, decide_eq_true_eq]
            exact ⟨⟨hne, hinfo⟩, hfile⟩
          split at h
          · rename_i a name hsplit
            have hlen : (env.Split arg '=').length = 2 := by rw [hsplit]; rfl
            by_cases hout_arg : env.StartsWith arg "--out=" = true
            · rw [if_pos hout_arg] at h
              have ho : opens_out_file env arg = true := by
                simp [opens_out_file, hfa, hout_arg, hlen]
              have hl : opens_log_file env arg = false := by
                simp [opens_log_file, hout_arg]
              by_cases hgood : (ofstream_open env state.out_file name).2 = true
              · rw [if_pos hgood] at h
                have hnone : state.out_file = none := by
                  cases hs : state.out_file with
                  | none => rfl
                  | some f => simp [ofstream_open, hs] at hgood
                have hcan : env.open_file name = true := by
                  cases hc : env.open_file name with
                  | true => rfl
                  | false => simp [ofstream_open, hnone, hc] at hgood
                have hopened : ofstream_open env state.out_file name = (some name, true) := by
                  simp [ofstream_open, hnone, hcan]
                rw [hopened] at h
                obtain ⟨before, u, post, hargs, hlist, hopen, hout, hlog, hu⟩ := ih _ _ h
                simp only [Option.toList_some, List.length_singleton] at hout
                refine ⟨arg :: before, u, post, by rw [hargs]; rfl, ?_, ?_, ?_, ?_, ?_⟩
                · intro hm
                  rcases List.mem_cons.mp hm with h1 | h1
                  · exact hne h1.symm
                  · exact hlist h1
                · intro x hx hxf a2 name2 hs2
                  rcases List.mem_cons.mp hx with h1 | h1
                  · subst h1
                    rw [hsplit] at hs2
                    simp only [List.cons.injEq, and_true] at hs2
                    rw [← hs2.2]
                    exact hcan
                  · exact hopen x h1 hxf a2 name2 hs2
                · rw [filter_length_cons_true _ arg before ho, hnone]
                  simp only [Option.toList_none, List.length_nil]
                  omega
                · rw [filter_length_cons_false _ arg before hl]
                  exact hlog
                · rcases hu with hm | ⟨hp, hset⟩
                  · exact Or.inl hm
                  · refine Or.inr ⟨hp, ?_⟩
                    rcases hset with h1 | ⟨p, hpm, hpp, hpe⟩
                    · exact Or.inl h1
                    · exact Or.inr ⟨p, List.mem_cons_of_mem _ hpm, hpp, hpe⟩
              · rw [if_neg hgood] at h
                obtain ⟨final, hf, hus, _⟩ := h
                simp only [Outcome.exit.injEq, true_and] at hf
                subst hf
                exact absurd hus (could_not_open_not_usage _ name)
            · rw [if_neg hout_arg] at h
              have hout_arg2 : env.StartsWith arg "--out=" = false := by
                simpa using hout_arg
              have ho : opens_out_file env arg = false := by
                simp [opens_out_file, hout_arg2]
              have hl : opens_log_file env arg = true := by
                simp [opens_log_file, hfa, hout_arg2, hlen]
              by_cases hgood : (ofstream_open env state.log_file name).2 = true
              · rw [if_pos hgood] at h
                have hnone : state.log_file = none := by
                  cases hs : state.log_file with
                  | none => rfl
                  | some f => simp [ofstream_open, hs] at hgood
                have hcan : env.open_file name = true := by
                  cases hc : env.open_file name with
                  | true => rfl
                  | false => simp [ofstream_open, hnone, hc] at hgood
                have hopened : ofstream_open env state.log_file name = (some name, true) := by
                  simp [ofstream_open, hnone, hcan]
                rw [hopened] at h
                obtain ⟨before, u, post, hargs, hlist, hopen, hout, hlog, hu⟩ := ih _ _ h
                simp only [Option.toList_some, List.length_singleton] at hlog
                refine ⟨arg :: before, u, post, by rw [hargs]; rfl, ?_, ?_, ?_, ?_, ?_⟩
                · intro hm
                  rcases List.mem_cons.mp hm with h1 | h1
                  · exact hne h1.symm
                  · exact hlist h1
                · intro x hx hxf a2 name2 hs2
                  rcases List.mem_cons.mp hx with h1 | h1
                  · subst h1
                    rw [hsplit] at hs2
                    simp only [List.cons.injEq, and_true] at hs2
                    rw [← hs2.2]
                    exact hcan
                  · exact hopen x h1 hxf a2 name2 hs2
                · rw [filter_length_cons_false _ arg before ho]
                  exact hout
                · rw [filter_length_cons_true _ arg before hl, hnone]
                  simp only [Option.toList_none, List.length_nil]
                  omega
                · rcases hu with hm | ⟨hp, hset⟩
                  · exact Or.inl hm
                  · refine Or.inr ⟨hp, ?_⟩
                    rcases hset with h1 | ⟨p, hpm, hpp, hpe⟩
                    · exact Or.inl h1
                    · exact Or.inr ⟨p, List.mem_cons_of_mem _ hpm, hpp, hpe⟩
              · rw [if_neg hgood] at h
                obtain ⟨final, hf, hus, _⟩ := h
                simp only [Outcome.exit.injEq, true_and] at hf
                subst hf
                exact absurd hus (could_not_open_not_usage _ name)
          · rename_i hsplit
            refine ⟨[], arg, rest, rfl, List.not_mem_nil _, (fun x hx => nomatch hx), ?_, ?_,
              Or.inl ?_⟩
            · cases state.out_file <;> simp
            · cases state.log_file <;> simp
            · simp only [is_malformed_file_argument, hfa, Bool.true_and, decide_eq_true_eq]
              intro hlen
              match hs : env.Split arg '=', hlen with
              | [a, name], _ => exact hsplit a name hs
        · rw [if_neg hfile] at h
          have hfile2 : (env.StartsWith arg "--out=" || env.StartsWith arg "--log=") = false := by
            simpa using hfile
          have hpat : is_pattern_argument env arg = true := by
            simp only [is_pattern_argument, Bool.and_eq_true, decide_eq_true_eq, hfile2,
              Bool.not_false, and_true]
            exact ⟨hne, hinfo⟩
          by_cases hset0 : configuration.name_pattern ≠ ""
          · refine ⟨[], arg, rest, rfl, List.not_mem_nil _, (fun x hx => nomatch hx), ?_, ?_,
              Or.inr ⟨hpat, Or.inl hset0⟩⟩
            · cases state.out_file <;> simp
            · cases state.log_file <;> simp
          · rw [if_neg hset0] at h
            obtain ⟨before, u, post, hargs, hlist, hopen, hout, hlog, hu⟩ := ih _ state h
            have hno : opens_out_file env arg = false := by
              simp [opens_out_file, is_file_argument, hfile2]
            have hnl : opens_log_file env arg = false := by
              simp [opens_log_file, is_file_argument, hfile2]
            refine ⟨arg :: before, u, post, by rw [hargs]; rfl, ?_, ?_, ?_, ?_, ?_⟩
            · intro hm
              rcases List.mem_cons.mp hm with h1 | h1
              · exact hne h1.symm
              · exact hlist h1
            · intro x hx hxf
              rcases List.mem_cons.mp hx with h1 | h1
              · subst h1
                simp [is_file_argument, hfile2] at hxf
              · exact hopen x h1 hxf
            · rw [filter_length_cons_false _ arg before hno]
              exact hout
            · rw [filter_length_cons_false _ arg before hnl]
              exact hlog
            · rcases hu with hm | ⟨hp, hset⟩
              · exact Or.inl hm
              · refine Or.inr ⟨hp, Or.inr ?_⟩
                rcases hset with h1 | ⟨p, hpm, hpp, hpe⟩
                · exact ⟨arg, List.mem_cons_self _ _, hpat, h1⟩
                · exact ⟨p, List.mem_cons_of_mem _ hpm, hpp, hpe⟩

/-- `parse_arguments` prints the usage text and exits with code 1, nothing
written to `stdout` and no benchmark run, exactly on the argument lists that
reach the usage text. -/
theorem parse_arguments_usage_iff (env : Environment) (benchmarks : List Benchmark)
    (argv : List String) (state : Process) :
    exits_with_usage state (parse_arguments env benchmarks argv state) ↔
      reaches_usage env { name_pattern := "", info := false } state (argv.drop 1) := by
  constructor
  · exact parse_arguments_loop_usage_only env benchmarks (argv.drop 1) _ state
  · intro ⟨before, u, post, hargs, hlist, hopen, hout, hlog, hu⟩
    unfold parse_arguments
    rw [hargs]
    exact parse_arguments_loop_usage env benchmarks before u post _ state hlist hopen hout
      hlog hu

/-- A second pattern argument ends the parse with the usage text whatever
follows it and also when it is empty: `benchmark_runner Q1 Q2 --list` and
`benchmark_runner Q1 ""` exit with code 1 after the usage text; so does a
malformed `--out=` argument before a `--list`. -/
theorem second_pattern_examples :
    main exampleEnvironment exampleBenchmarks ["benchmark_runner", "Q1", "Q2", "--list"]
        Process.initial =
      (1, { Process.initial with
            stderr := "Only one benchmark can be specified." :: help_text }) ∧
    main exampleEnvironment exampleBenchmarks ["benchmark_runner", "Q1", ""]
        Process.initial =
      (1, { Process.initial with
            stderr := "Only one benchmark can be specified." :: help_text }) ∧
    main exampleEnvironment exampleBenchmarks
        ["benchmark_runner", "--out=a=b", "--list", "Q1", "Q2"] Process.initial =
      (1, { Process.initial with stderr := help_text }) := by
  decide

/-- A second `--out=` finds the stream `out_file` open, so `open` fails: at
`benchmark_runner --out=a --out=a Q1 Q2` the process writes "Could not open
file a for writing" and exits with code 1 without the usage text. An empty
first argument is no pattern: `benchmark_runner "" Q1` runs `Q1` and exits
with code 0. -/
theorem parse_arguments_second_out :
    main exampleEnvironment exampleBenchmarks
        ["benchmark_runner", "--out=a", "--out=a", "Q1", "Q2"] Process.initial =
      (1, { Process.initial with
            out_file := some "a", stderr := ["Could not open file a for writing"] }) ∧
    (main exampleEnvironment exampleBenchmarks ["benchmark_runner", "", "Q1"]
        Process.initial).1 = 0 ∧
    (main exampleEnvironment exampleBenchmarks ["benchmark_runner", "", "Q1"]
        Process.initial).2.ran = ["Q1"] := by
  decide


/-- An empty argument is taken as "no pattern given": at `benchmark_runner "" ""`
the parser returns the default configuration and every benchmark is run. -/
theorem parse_arguments_empty_patterns :
    parse_arguments exampleEnvironment exampleBenchmarks ["benchmark_runner", "", ""]
        Process.initial = .ret { name_pattern := "", info := false } Process.initial ∧
    (main exampleEnvironment exampleBenchmarks ["benchmark_runner", "", ""]
        Process.initial).1 = 0 ∧
    (main exampleEnvironment exampleBenchmarks ["benchmark_runner", "", ""]
        Process.initial).2.ran = ["Q1", "Q2"] := by
  decide

/-- The polling loop: it ends at an `i` within the bound, every read before
that returned true, and it ends early exactly on a read that returned false. -/
theorem sleep_thread_loop_spec (is_active : Nat → Bool) (remaining : Nat) :
    ∀ i, i ≤ (sleep_thread_loop is_active remaining i).1 ∧
      (sleep_thread_loop is_active remaining i).1 ≤ i + remaining ∧
      ((sleep_thread_loop is_active remaining i).2 = true →
        is_active (sleep_thread_loop is_active remaining i).1 = false ∧
        (sleep_thread_loop is_active remaining i).1 < i + remaining) ∧
      ((sleep_thread_loop is_active remaining i).2 = false →
        (sleep_thread_loop is_active remaining i).1 = i + remaining) ∧
      (∀ k, i ≤ k → k < (sleep_thread_loop is_active remaining i).1 → is_active k = true) := by
  induction remaining with
  | zero =>
    intro i
    simp only [sleep_thread_loop]
    refine ⟨Nat.le_refl i, Nat.le_refl _, (fun h => nomatch h), (fun _ => rfl), fun k h1 h2 => ?_⟩
    omega
  | succ remaining ih =>
    intro i
    simp only [sleep_thread_loop]
    cases ha : is_active i
    · simp only [Bool.false_eq_true, if_false]
      refine ⟨Nat.le_refl i, by omega, (fun _ => ⟨ha, by omega⟩), (fun h => nomatch h),
        fun k h1 h2 => ?_⟩
      omega
    · simp only [if_true]
      obtain ⟨h1, h2, h3, h4, h5⟩ := ih (i + 1)
      have h3a : (sleep_thread_loop is_active remaining (i + 1)).2 = true →
          (sleep_thread_loop is_active remaining (i + 1)).1 < i + (remaining + 1) := by
        intro h
        have := (h3 h).2
        omega
      have h4a : (sleep_thread_loop is_active remaining (i + 1)).2 = false →
          (sleep_thread_loop is_active remaining (i + 1)).1 = i + (remaining + 1) := by
        intro h
        have := h4 h
        omega
      refine ⟨by omega, by omega, (fun h => ⟨(h3 h).1, h3a h⟩), h4a, fun k hk1 hk2 => ?_⟩
      rcases Nat.eq_or_lt_of_le hk1 with heq | hlt
      · rw [← heq]
        exact ha
      · exact h5 k hlt hk2

/-- While the flag stays true the polling loop runs to its bound. -/
theorem sleep_thread_loop_active (is_active : Nat → Bool) (h : ∀ k, is_active k = true)
    (remaining : Nat) :
    ∀ i, sleep_thread_loop is_active remaining i = (i + remaining, false) := by
  induction remaining with
  | zero =>
    intro i
    rfl
  | succ remaining ih =>
    intro i
    simp only [sleep_thread_loop, h i, if_true, ih (i + 1)]
    congr 1
    omega

/-- `sleep_thread` with a timeout that is not negative, field by field. -/
theorem sleep_thread_of_nonneg (timeout_duration : Int) (is_active : Nat → Bool)
    (timeout : Bool) (hpos : 0 ≤ timeout_duration) (exit : Nat × Bool)
    (hexit : sleep_thread_loop is_active (to_size_t (int_times_100 timeout_duration)) 0 = exit) :
    sleep_thread timeout_duration is_active timeout =
      { polls := if exit.2 then exit.1 + 1 else exit.1, sleeps := exit.1,
        timeout := is_active (if exit.2 then exit.1 + 1 else exit.1) || timeout,
        interrupted := is_active (if exit.2 then exit.1 + 1 else exit.1) } := by
  have hnot : ¬ timeout_duration < 0 := by omega
  unfold sleep_thread
  rw [if_neg hnot, hexit]
  cases h : is_active (if exit.2 then exit.1 + 1 else exit.1) <;> simp [h]

/-- What `sleep_thread` does when the product `timeout_duration * 100` fits an
`int`: with a negative timeout it returns at once, leaving the flag as it was
and calling nothing; otherwise it polls at most `timeout_duration * 100` times,
sleeping after each poll that read true, and it sets the flag and calls
`Interrupt` exactly when the read after the loop finds the benchmark active. -/
theorem sleep_thread_in_range (timeout_duration : Int) (is_active : Nat → Bool)
    (timeout : Bool) :
    (timeout_duration < 0 →
      sleep_thread timeout_duration is_active timeout =
        { polls := 0, sleeps := 0, timeout := timeout, interrupted := false }) ∧
    (0 ≤ timeout_duration → timeout_duration * 100 < 2 ^ 31 →
      ((sleep_thread timeout_duration is_active timeout).polls : Int) ≤
        timeout_duration * 100) ∧
    (0 ≤ timeout_duration →
      (sleep_thread timeout_duration is_active timeout).sleeps ≤
        (sleep_thread timeout_duration is_active timeout).polls ∧
      (∀ k, k < (sleep_thread timeout_duration is_active timeout).sleeps →
        is_active k = true) ∧
      (sleep_thread timeout_duration is_active timeout).interrupted =
        is_active (sleep_thread timeout_duration is_active timeout).polls ∧
      (sleep_thread timeout_duration is_active timeout).timeout =
        (is_active (sleep_thread timeout_duration is_active timeout).polls || timeout)) := by
  refine ⟨?_, ?_, ?_⟩
  · intro hneg
    simp only [sleep_thread, hneg, if_true]
  · intro hpos hfit
    have hprod : int_times_100 timeout_duration = timeout_duration * 100 := by
      simp only [int_times_100]
      omega
    have hbound : to_size_t (int_times_100 timeout_duration) =
        (timeout_duration * 100).toNat := by
      rw [hprod]
      simp only [to_size_t]
      congr 1
      omega
    have hspec := sleep_thread_loop_spec is_active
      (to_size_t (int_times_100 timeout_duration)) 0
    obtain ⟨_, h2, h3, _, _⟩ := hspec
    rw [sleep_thread_of_nonneg timeout_duration is_active timeout hpos _ rfl]
    simp only
    rw [hbound] at h2 h3 ⊢
    cases hstop : (sleep_thread_loop is_active (timeout_duration * 100).toNat 0).2
    · simp only [Bool.false_eq_true, if_false]
      omega
    · simp only [if_true]
      have := (h3 hstop).2
      omega
  · intro hpos
    have hspec := sleep_thread_loop_spec is_active
      (to_size_t (int_times_100 timeout_duration)) 0
    obtain ⟨_, _, _, _, h5⟩ := hspec
    rw [sleep_thread_of_nonneg timeout_duration is_active timeout hpos _ rfl]
    refine ⟨?_, fun k hk => h5 k (Nat.zero_le k) hk, rfl, rfl⟩
    simp only
    split <;> omega

/-- C14 at the timeout 21474837 with a benchmark that stays active: the `int`
product `21474837 * 100` overflows to -2147483596, the loop bound is that
number as a `size_t`, and the watchdog polls 18446744071562068020 times, more
than the 2147483700 polls of 21474837 seconds. -/
theorem sleep_thread_overflow :
    int_times_100 21474837 = -2147483596 ∧
    (sleep_thread 21474837 (fun _ => true) false).polls = 18446744071562068020 ∧
    21474837 * 100 < (sleep_thread 21474837 (fun _ => true) false).polls := by
  have hbound : to_size_t (int_times_100 21474837) = 18446744071562068020 := by
    norm_num [to_size_t, int_times_100]
    rfl
  have hloop := sleep_thread_loop_active (fun _ => true) (fun _ => rfl)
    (to_size_t (int_times_100 21474837)) 0
  have hpolls : (sleep_thread 21474837 (fun _ => true) false).polls = 18446744071562068020 := by
    rw [sleep_thread_of_nonneg 21474837 (fun _ => true) false (by norm_num) _ hloop]
    simp only [Bool.false_eq_true, if_false, hbound, Nat.zero_add]
  refine ⟨by norm_num [int_times_100], hpolls, ?_⟩
  rw [hpolls]
  norm_num

/-- `Log` hands nothing to `LogResult`. -/
@[simp] theorem BenchmarkRunner.Log_results (m : String) (s : Process) :
    (BenchmarkRunner.Log m s).results = s.results := rfl

/-- `Log` calls nothing on the benchmark. -/
@[simp] theorem BenchmarkRunner.Log_calls (m : String) (s : Process) :
    (BenchmarkRunner.Log m s).calls = s.calls := rfl

/-- `LogLine` hands nothing to `LogResult`. -/
@[simp] theorem BenchmarkRunner.LogLine_results (m : String) (s : Process) :
    (BenchmarkRunner.LogLine m s).results = s.results := rfl

/-- `LogLine` calls nothing on the benchmark. -/
@[simp] theorem BenchmarkRunner.LogLine_calls (m : String) (s : Process) :
    (BenchmarkRunner.LogLine m s).calls = s.calls := rfl

/-- `LogResult` records its message. -/
@[simp] theorem BenchmarkRunner.LogResult_results (m : String) (s : Process) :
    (BenchmarkRunner.LogResult m s).results = s.results ++ [m] := by
  unfold BenchmarkRunner.LogResult
  cases h : s.out_file <;> simp [BenchmarkRunner.LogLine, h]

/-- `LogResult` calls nothing on the benchmark. -/
@[simp] theorem BenchmarkRunner.LogResult_calls (m : String) (s : Process) :
    (BenchmarkRunner.LogResult m s).calls = s.calls := by
  unfold BenchmarkRunner.LogResult
  cases h : s.out_file <;> simp [BenchmarkRunner.LogLine, h]

/-- `LogOutput` hands nothing to `LogResult`. -/
@[simp] theorem BenchmarkRunner.LogOutput_results (m : String) (s : Process) :
    (BenchmarkRunner.LogOutput m s).results = s.results := by
  unfold BenchmarkRunner.LogOutput
  cases h : s.log_file <;> rfl

/-- `LogOutput` calls nothing on the benchmark. -/
@[simp] theorem BenchmarkRunner.LogOutput_calls (m : String) (s : Process) :
    (BenchmarkRunner.LogOutput m s).calls = s.calls := by
  unfold BenchmarkRunner.LogOutput
  cases h : s.log_file <;> rfl

/-- A call on the benchmark hands nothing to `LogResult`. -/
@[simp] theorem Process.call_results (c : BenchmarkCall) (s : Process) :
    (s.call c).results = s.results := rfl

/-- A call on the benchmark is recorded last. -/
@[simp] theorem Process.call_calls (c : BenchmarkCall) (s : Process) :
    (s.call c).calls = s.calls ++ [c] := rfl

/-- The results of `h` hot runs from run `i + 1` on, after the result of run
`i`. -/
theorem run_results_succ (env : Environment) (benchmark : Benchmark) (i h : Nat) :
    (List.range (h + 1)).map (fun j => run_result env benchmark (i + j)) =
      run_result env benchmark i ::
        (List.range h).map (fun j => run_result env benchmark (i + 1 + j)) := by
  rw [List.range_succ_eq_map, List.map_cons, List.map_map]
  congr 1
  apply List.map_congr_left
  intro j _
  show run_result env benchmark (i + (j + 1)) = run_result env benchmark (i + 1 + j)
  congr 1
  omega

/-- The hot runs of `RunBenchmark`, from run `i` on with `remaining` runs left:
`h` of them are performed, each with one result and one `Run` call, none with
a `Finalize` call; every run but the last performed one neither timed out nor
failed to verify, and if fewer than `remaining` were performed the last one
did. -/
theorem BenchmarkRunner.RunBenchmark_loop_hot (env : Environment) (benchmark : Benchmark)
    (nruns remaining : Nat) :
    ∀ (i : Nat) (state : Process), 0 < i →
      ∃ h, h ≤ remaining ∧
        (BenchmarkRunner.RunBenchmark_loop env benchmark nruns remaining i state).results =
          state.results ++ (List.range h).map (fun j => run_result env benchmark (i + j)) ∧
        (BenchmarkRunner.RunBenchmark_loop env benchmark nruns remaining i state).calls.count
            .Run = state.calls.count .Run + h ∧
        (BenchmarkRunner.RunBenchmark_loop env benchmark nruns remaining i state).calls.count
            .Finalize = state.calls.count .Finalize ∧
        (∀ j, j + 1 < h → run_failed env benchmark (i + j) = false) ∧
        (h < remaining → 0 < h ∧ run_failed env benchmark (i + (h - 1)) = true) := by
  induction remaining with
  | zero =>
    intro i state _
    refine ⟨0, Nat.le_refl 0, ?_, rfl, rfl, ?_, ?_⟩
    · simp [BenchmarkRunner.RunBenchmark_loop]
    · intro j hj
      omega
    · intro hlt
      omega
  | succ remaining ih =>
    intro i state hi
    have hhot : decide (0 < i) = true := decide_eq_true hi
    simp only [BenchmarkRunner.RunBenchmark_loop, hhot, if_true, Bool.true_and]
    cases hto : (sleep_thread benchmark.timeout
        (fun k => decide (k < (env.observe benchmark i).active_reads)) false).timeout
    · by_cases hv : (env.observe benchmark i).verify = ""
      · -- the run is clean: its result is the elapsed time and the loop goes on
        simp only [Bool.false_eq_true, if_false, hv, ne_eq, not_true_eq_false]
        have hres : run_result env benchmark i = (env.observe benchmark i).elapsed := by
          simp [run_result, run_timed_out, hto, hv]
        have hok : run_failed env benchmark i = false := by
          simp [run_failed, run_timed_out, hto, hv]
        generalize hs : BenchmarkRunner.LogResult (env.observe benchmark i).elapsed _ = next
        obtain ⟨h, hle, hresults, hrun, hfin, hclean, hlast⟩ := ih (i + 1) next (by omega)
        have hnext_results : next.results = state.results ++ [run_result env benchmark i] := by
          rw [← hs, hres]
          cases benchmark.require_reinit <;>
            cases (sleep_thread benchmark.timeout
              (fun k => decide (k < (env.observe benchmark i).active_reads)) false).interrupted <;>
            simp
        have hnext_run : next.calls.count .Run = state.calls.count .Run + 1 := by
          rw [← hs]
          cases benchmark.require_reinit <;>
            cases (sleep_thread benchmark.timeout
              (fun k => decide (k < (env.observe benchmark i).active_reads)) false).interrupted <;>
            simp [List.count_append, List.count_cons]
        have hnext_fin : next.calls.count .Finalize = state.calls.count .Finalize := by
          rw [← hs]
          cases benchmark.require_reinit <;>
            cases (sleep_thread benchmark.timeout
              (fun k => decide (k < (env.observe benchmark i).active_reads)) false).interrupted <;>
            simp [List.count_append, List.count_cons]
        refine ⟨h + 1, by omega, ?_, ?_, ?_, ?_, ?_⟩
        · rw [hresults, hnext_results, run_results_succ, List.append_assoc]
          rfl
        · rw [hrun, hnext_run]
          omega
        · rw [hfin, hnext_fin]
        · intro j hj
          cases j with
          | zero => exact hok
          | succ j =>
            have := hclean j (by omega)
            rw [show i + (j + 1) = i + 1 + j by omega]
            exact this
        · intro hlt
          have hlt2 : h < remaining := by omega
          obtain ⟨hpos, hfail⟩ := hlast hlt2
          refine ⟨by omega, ?_⟩
          rw [show i + (h + 1 - 1) = i + 1 + (h - 1) by omega]
          exact hfail
      · -- the run does not verify: "INCORRECT" is logged and the loop ends
        simp only [Bool.false_eq_true, if_false, hv, ne_eq, not_false_eq_true, if_true]
        have hres : run_result env benchmark i = "INCORRECT" := by
          simp [run_result, run_timed_out, hto, hv]
        have hbad : run_failed env benchmark i = true := by
          simp [run_failed, run_timed_out, hto, hv]
        refine ⟨1, by omega, ?_, ?_, ?_, ?_, ?_⟩
        · rw [show List.range 1 = [0] by rfl, List.map_cons, List.map_nil, Nat.add_zero, hres]
          cases benchmark.require_reinit <;>
            cases (sleep_thread benchmark.timeout
              (fun k => decide (k < (env.observe benchmark i).active_reads)) false).interrupted <;>
            simp
        · cases benchmark.require_reinit <;>
            cases (sleep_thread benchmark.timeout
              (fun k => decide (k < (env.observe benchmark i).active_reads)) false).interrupted <;>
            simp [List.count_append, List.count_cons]
        · cases benchmark.require_reinit <;>
            cases (sleep_thread benchmark.timeout
              (fun k => decide (k < (env.observe benchmark i).active_reads)) false).interrupted <;>
            simp [List.count_append, List.count_cons]
        · intro j hj
          omega
        · intro _
          exact ⟨by omega, by simpa using hbad⟩
    · -- the run timed out: "TIMEOUT" is logged and the loop ends
      simp only [if_true]
      have hres : run_result env benchmark i = "TIMEOUT" := by
        simp [run_result, run_timed_out, hto]
      have hbad : run_failed env benchmark i = true := by
        simp [run_failed, run_timed_out, hto]
      refine ⟨1, by omega, ?_, ?_, ?_, ?_, ?_⟩
      · rw [show List.range 1 = [0] by rfl, List.map_cons, List.map_nil, Nat.add_zero, hres]
        cases benchmark.require_reinit <;>
          cases (sleep_thread benchmark.timeout
            (fun k => decide (k < (env.observe benchmark i).active_reads)) false).interrupted <;>
          simp
      · cases benchmark.require_reinit <;>
          cases (sleep_thread benchmark.timeout
            (fun k => decide (k < (env.observe benchmark i).active_reads)) false).interrupted <;>
          simp [List.count_append, List.count_cons]
      · cases benchmark.require_reinit <;>
          cases (sleep_thread benchmark.timeout
            (fun k => decide (k < (env.observe benchmark i).active_reads)) false).interrupted <;>
          simp [List.count_append, List.count_cons]
      · intro j hj
        omega
      · intro _
        exact ⟨by omega, by simpa using hbad⟩

/-- A run that neither timed out nor failed to verify has its elapsed time as
result line. -/
theorem run_result_of_not_failed (env : Environment) (benchmark : Benchmark) (i : Nat)
    (h : run_failed env benchmark i = false) :
    run_result env benchmark i = (env.observe benchmark i).elapsed := by
  simp only [run_failed, Bool.or_eq_false_iff, decide_eq_false_iff_not, ne_eq,
    not_not] at h
  simp [run_result, h.1, h.2]

/-- C15: `RunBenchmark` on a benchmark with `NRuns() = n` makes the cold run
and then `h ≤ n` hot runs (`1 + h` calls of `Run`); it hands `LogResult` no
line for the cold run and one line per hot run, in order; every hot run before
the last performed one neither timed out nor failed to verify and has its
elapsed time as line, so "TIMEOUT" and "INCORRECT" can only be the last line;
fewer than `n` hot runs are performed only when the last performed one timed
out or failed to verify; and `Finalize` is called once, as the last call. -/
theorem BenchmarkRunner.RunBenchmark_runs (env : Environment) (benchmark : Benchmark)
    (state : Process) :
    ∃ h, h ≤ benchmark.nruns ∧
      (BenchmarkRunner.RunBenchmark env benchmark state).calls.count .Run =
        state.calls.count .Run + 1 + h ∧
      (BenchmarkRunner.RunBenchmark env benchmark state).results =
        state.results ++ (List.range h).map (fun j => run_result env benchmark (1 + j)) ∧
      (∀ j, j + 1 < h → run_failed env benchmark (1 + j) = false ∧
        run_result env benchmark (1 + j) = (env.observe benchmark (1 + j)).elapsed) ∧
      (h < benchmark.nruns → 0 < h ∧ run_failed env benchmark h = true) ∧
      (BenchmarkRunner.RunBenchmark env benchmark state).calls.count .Finalize =
        state.calls.count .Finalize + 1 ∧
      (BenchmarkRunner.RunBenchmark env benchmark state).calls.getLast? = some .Finalize := by
  simp only [BenchmarkRunner.RunBenchmark, BenchmarkRunner.RunBenchmark_loop,
    Nat.lt_irrefl, decide_False, Bool.false_eq_true, if_false, Bool.false_and]
  generalize hs : BenchmarkRunner.LogLine "DONE" _ = cold
  obtain ⟨h, hle, hresults, hrun, hfin, hclean, hlast⟩ :=
    BenchmarkRunner.RunBenchmark_loop_hot env benchmark benchmark.nruns benchmark.nruns 1
      cold (by omega)
  have hcold_results : cold.results = state.results := by
    rw [← hs]
    cases (sleep_thread benchmark.timeout
      (fun k => decide (k < (env.observe benchmark 0).active_reads)) false).interrupted <;>
      simp
  have hcold_run : cold.calls.count .Run = state.calls.count .Run + 1 := by
    rw [← hs]
    cases (sleep_thread benchmark.timeout
      (fun k => decide (k < (env.observe benchmark 0).active_reads)) false).interrupted <;>
      simp [List.count_append, List.count_cons]
  have hcold_fin : cold.calls.count .Finalize = state.calls.count .Finalize := by
    rw [← hs]
    cases (sleep_thread benchmark.timeout
      (fun k => decide (k < (env.observe benchmark 0).active_reads)) false).interrupted <;>
      simp [List.count_append, List.count_cons]
  refine ⟨h, hle, ?_, ?_, ?_, ?_, ?_, ?_⟩
  · simp only [Process.call_calls, List.count_append, hrun, hcold_run]
    simp [List.count_cons]
  · simp only [Process.call_results, hresults, hcold_results]
  · intro j hj
    exact ⟨hclean j hj, run_result_of_not_failed env benchmark (1 + j) (hclean j hj)⟩
  · intro hlt
    obtain ⟨hpos, hfail⟩ := hlast hlt
    refine ⟨hpos, ?_⟩
    rw [show 1 + (h - 1) = h by omega] at hfail
    exact hfail
  · simp only [Process.call_calls, List.count_append, hfin, hcold_fin]
    simp [List.count_cons]
  · simp only [Process.call_calls, List.getLast?_append, List.getLast?_singleton]
    rfl

/-- C15 on a benchmark with three hot runs whose second hot run does not
verify: the cold run and two hot runs are made, the result lines are "0.5" and
"INCORRECT", the third hot run is not made, and `Finalize` is the last call. -/
theorem BenchmarkRunner.RunBenchmark_runs_witness :
    (∃ h, h ≤ 3 ∧
      (BenchmarkRunner.RunBenchmark exampleFailingEnvironment exampleSlowBenchmark
        Process.initial).calls.count .Run = 0 + 1 + h ∧
      (BenchmarkRunner.RunBenchmark exampleFailingEnvironment exampleSlowBenchmark
        Process.initial).results =
        [] ++ (List.range h).map
          (fun j => run_result exampleFailingEnvironment exampleSlowBenchmark (1 + j))) ∧
    (BenchmarkRunner.RunBenchmark exampleFailingEnvironment exampleSlowBenchmark
      Process.initial).results = ["0.5", "INCORRECT"] ∧
    (BenchmarkRunner.RunBenchmark exampleFailingEnvironment exampleSlowBenchmark
      Process.initial).calls.count .Run = 3 :=
  ⟨(BenchmarkRunner.RunBenchmark_runs exampleFailingEnvironment exampleSlowBenchmark
      Process.initial).imp (fun _ hh => ⟨hh.1, hh.2.1, hh.2.2.1⟩),
    by decide, by decide⟩

/-- `LogResult` writes nothing to `stdout` and runs nothing. -/
theorem BenchmarkRunner.LogResult_frame (m : String) (s : Process) :
    (BenchmarkRunner.LogResult m s).ran = s.ran ∧
      (BenchmarkRunner.LogResult m s).stdout = s.stdout := by
  unfold BenchmarkRunner.LogResult
  cases h : s.out_file <;> simp [BenchmarkRunner.LogLine, h]

/-- `LogOutput` writes nothing to `stdout` and runs nothing. -/
theorem BenchmarkRunner.LogOutput_frame (m : String) (s : Process) :
    (BenchmarkRunner.LogOutput m s).ran = s.ran ∧
      (BenchmarkRunner.LogOutput m s).stdout = s.stdout := by
  unfold BenchmarkRunner.LogOutput
  cases h : s.log_file <;> simp

/-- The runs of one benchmark write nothing to `stdout` and start no other
benchmark. -/
theorem BenchmarkRunner.RunBenchmark_loop_frame (env : Environment) (benchmark : Benchmark)
    (nruns remaining : Nat) :
    ∀ (i : Nat) (state : Process),
      (BenchmarkRunner.RunBenchmark_loop env benchmark nruns remaining i state).ran =
        state.ran ∧
      (BenchmarkRunner.RunBenchmark_loop env benchmark nruns remaining i state).stdout =
        state.stdout := by
  induction remaining with
  | zero =>
    intro i state
    exact ⟨rfl, rfl⟩
  | succ remaining ih =>
    intro i state
    simp only [BenchmarkRunner.RunBenchmark_loop]
    split_ifs <;>
      simp [ih, BenchmarkRunner.LogResult_frame, BenchmarkRunner.LogOutput_frame,
        BenchmarkRunner.LogLine, BenchmarkRunner.Log, Process.call]

/-- `RunBenchmark` records the benchmark in `ran` and writes nothing to
`stdout`. -/
theorem BenchmarkRunner.RunBenchmark_frame (env : Environment) (benchmark : Benchmark)
    (state : Process) :
    (BenchmarkRunner.RunBenchmark env benchmark state).ran = state.ran ++ [benchmark.name] ∧
      (BenchmarkRunner.RunBenchmark env benchmark state).stdout = state.stdout := by
  simp [BenchmarkRunner.RunBenchmark, BenchmarkRunner.RunBenchmark_loop_frame,
    BenchmarkRunner.LogLine, Process.call]

/-- Running a list of benchmarks one after the other records their names in
order and writes nothing to `stdout`. -/
theorem BenchmarkRunner.RunBenchmark_foldl_frame (env : Environment)
    (benchmarks : List Benchmark) :
    ∀ state : Process,
      (benchmarks.foldl (fun st b => BenchmarkRunner.RunBenchmark env b st) state).ran =
        state.ran ++ benchmarks.map (fun b => b.name) ∧
      (benchmarks.foldl (fun st b => BenchmarkRunner.RunBenchmark env b st) state).stdout =
        state.stdout := by
  induction benchmarks with
  | nil =>
    intro state
    simp
  | cons b rest ih =>
    intro state
    simp only [List.foldl_cons, List.map_cons]
    obtain ⟨h1, h2⟩ := ih (BenchmarkRunner.RunBenchmark env b state)
    obtain ⟨h3, h4⟩ := BenchmarkRunner.RunBenchmark_frame env b state
    rw [h1, h2, h3, h4]
    simp

/-- A loop over the indices of the elements that satisfy `q`, looking each
element up by its index, is the loop over those elements. -/
theorem foldl_indices_eq_foldl_filter {α β : Type} (q : α → Bool) (g : β → α → β)
    (l : List α) :
    ∀ s : β,
      ((List.range l.length).filter (fun index =>
          match l[index]? with
          | some a => q a
          | none => false)).foldl
        (fun st index =>
          match l[index]? with
          | some a => g st a
          | none => st) s =
      (l.filter q).foldl g s := by
  induction l using List.reverseRecOn with
  | nil =>
    intro s
    rfl
  | append_singleton l a ih =>
    intro s
    have hfilter : (List.range l.length).filter (fun index =>
          match (l ++ [a])[index]? with
          | some a => q a
          | none => false) =
        (List.range l.length).filter (fun index =>
          match l[index]? with
          | some a => q a
          | none => false) := by
      apply List.filter_congr
      intro index hindex
      rw [List.getElem?_append_left (List.mem_range.mp hindex)]
    have hlast : (l ++ [a])[l.length]? = some a := by
      simp
    rw [List.length_append, List.length_singleton, List.range_succ, List.filter_append,
      List.foldl_append, hfilter, List.filter_append, List.foldl_append, ← ih]
    have hfold : ∀ (idx : List Nat), (∀ index ∈ idx, index < l.length) →
        idx.foldl (fun st index =>
          match (l ++ [a])[index]? with
          | some a => g st a
          | none => st) s =
        idx.foldl (fun st index =>
          match l[index]? with
          | some a => g st a
          | none => st) s := by
      intro idx
      induction idx generalizing s with
      | nil => intro _; rfl
      | cons x xs ihx =>
        intro hall
        simp only [List.foldl_cons]
        rw [List.getElem?_append_left (hall x (List.mem_cons_self _ _))]
        exact ihx _ (fun index hindex => hall index (List.mem_cons_of_mem _ hindex))
    rw [hfold _ (fun index hindex => List.mem_range.mp (List.mem_filter.mp hindex).1)]
    cases hq : q a <;> simp [List.filter_cons, hlast, hq]

/-- No index is collected exactly when the pattern matches no registered
benchmark. -/
theorem matching_indices_eq_nil_iff (env : Environment) (benchmarks : List Benchmark)
    (name_pattern : String) :
    matching_indices env benchmarks name_pattern = [] ↔
      ∀ b ∈ benchmarks, env.FullMatch b.name name_pattern = false := by
  simp only [matching_indices, List.filter_eq_nil_iff, List.mem_range]
  constructor
  · intro h b hb
    obtain ⟨index, hindex, hget⟩ := List.getElem_of_mem hb
    have := h index hindex
    rw [List.getElem?_eq_getElem hindex, hget] at this
    simpa using this
  · intro h index hindex
    rw [List.getElem?_eq_getElem hindex]
    simp [h _ (List.getElem_mem hindex)]

/-- C11: `run_benchmarks` returns an error exactly when the name pattern is not
empty and fully matches no registered benchmark name (BenchmarkNotFound) or the
pattern is empty and `--info` is set (InfoWithoutBenchmarkName); with an error
the process state is returned as it was, so nothing was run and nothing
printed; and once `parse_arguments` has returned a configuration, `main` ends
with code 1, after the error message and the usage text, exactly when
`run_benchmarks` returned an error, and with code 0 otherwise. -/
theorem run_benchmarks_errors (env : Environment) (benchmarks : List Benchmark)
    (configuration : BenchmarkConfiguration) (state : Process) :
    ((run_benchmarks env benchmarks configuration state).1 = .BenchmarkNotFound ↔
      (configuration.name_pattern ≠ "" ∧
        ∀ b ∈ benchmarks, env.FullMatch b.name configuration.name_pattern = false)) ∧
    ((run_benchmarks env benchmarks configuration state).1 = .InfoWithoutBenchmarkName ↔
      (configuration.name_pattern = "" ∧ configuration.info = true)) ∧
    ((run_benchmarks env benchmarks configuration state).1 ≠ .None ↔
      ((configuration.name_pattern ≠ "" ∧
          ∀ b ∈ benchmarks, env.FullMatch b.name configuration.name_pattern = false) ∨
        (configuration.name_pattern = "" ∧ configuration.info = true))) ∧
    ((run_benchmarks env benchmarks configuration state).1 ≠ .None →
      (run_benchmarks env benchmarks configuration state).2 = state) ∧
    (∀ argv initial, parse_arguments env benchmarks argv initial = .ret configuration state →
      ((run_benchmarks env benchmarks configuration state).1 ≠ .None →
        main env benchmarks argv initial =
          (1, print_error_message (run_benchmarks env benchmarks configuration state).1
            state)) ∧
      ((run_benchmarks env benchmarks configuration state).1 = .None →
        main env benchmarks argv initial =
          (0, (run_benchmarks env benchmarks configuration state).2))) := by
  have hnil := matching_indices_eq_nil_iff env benchmarks configuration.name_pattern
  have hmain : ∀ argv initial,
      parse_arguments env benchmarks argv initial = .ret configuration state →
      ((run_benchmarks env benchmarks configuration state).1 ≠ .None →
        main env benchmarks argv initial =
          (1, print_error_message (run_benchmarks env benchmarks configuration state).1
            (run_benchmarks env benchmarks configuration state).2)) ∧
      ((run_benchmarks env benchmarks configuration state).1 = .None →
        main env benchmarks argv initial =
          (0, (run_benchmarks env benchmarks configuration state).2)) := by
    intro argv initial hparse
    simp only [main, hparse]
    rcases hrun : run_benchmarks env benchmarks configuration state with ⟨error, final⟩
    cases error <;> simp
  by_cases hp : configuration.name_pattern = ""
  · cases hi : configuration.info
    · have hrun : (run_benchmarks env benchmarks configuration state).1 = .None := by
        simp [run_benchmarks, hp, hi]
      refine ⟨?_, ?_, ?_, ?_, ?_⟩
      · simp [hrun, hp]
      · simp [hrun, hp, hi]
      · simp [hrun, hp, hi]
      · simp [hrun]
      · intro argv initial hparse
        exact ⟨fun h => absurd hrun h, (hmain argv initial hparse).2⟩
    · have hrun : run_benchmarks env benchmarks configuration state =
          (.InfoWithoutBenchmarkName, state) := by
        simp [run_benchmarks, hp, hi]
      refine ⟨?_, ?_, ?_, ?_, ?_⟩
      · simp [hrun, hp]
      · simp [hrun, hp, hi]
      · simp [hrun, hp, hi]
      · simp [hrun]
      · intro argv initial hparse
        have := (hmain argv initial hparse).1
        rw [hrun] at this ⊢
        exact ⟨this, fun h => by cases h⟩
  · by_cases hm : matching_indices env benchmarks configuration.name_pattern = []
    · have hrun : run_benchmarks env benchmarks configuration state =
          (.BenchmarkNotFound, state) := by
        simp [run_benchmarks, hp, hm]
      have hno := hnil.mp hm
      refine ⟨?_, ?_, ?_, ?_, ?_⟩
      · simp only [hrun, true_iff]
        exact ⟨hp, hno⟩
      · simp [hrun, hp]
      · simp only [hrun, ne_eq, reduceCtorEq, not_false_eq_true, true_iff]
        exact Or.inl ⟨hp, hno⟩
      · simp [hrun]
      · intro argv initial hparse
        have := (hmain argv initial hparse).1
        rw [hrun] at this ⊢
        exact ⟨this, fun h => by cases h⟩
    · have hrun : (run_benchmarks env benchmarks configuration state).1 = .None := by
        simp only [run_benchmarks, hp, ne_eq, not_false_eq_true, if_true, hm, if_false]
        split <;> rfl
      have hsome : ¬ ∀ b ∈ benchmarks,
          env.FullMatch b.name configuration.name_pattern = false := fun h => hm (hnil.mpr h)
      refine ⟨?_, ?_, ?_, ?_, ?_⟩
      · simp only [hrun, reduceCtorEq, false_iff]
        exact fun h => hsome h.2
      · simp [hrun, hp]
      · simp only [hrun, ne_eq, not_true_eq_false, false_iff, not_or]
        exact ⟨fun h => hsome h.2, fun h => hp h.1⟩
      · simp [hrun]
      · intro argv initial hparse
        exact ⟨fun h => absurd hrun h, (hmain argv initial hparse).2⟩

/-- C11 at `benchmark_runner Q9`: the pattern matches neither `Q1` nor `Q2`, so
`run_benchmarks` returns BenchmarkNotFound and `main` prints the message and
the usage text and ends with code 1, nothing run. -/
theorem run_benchmarks_errors_witness :
    parse_arguments exampleEnvironment exampleBenchmarks ["benchmark_runner", "Q9"]
      Process.initial = .ret { name_pattern := "Q9", info := false } Process.initial ∧
    main exampleEnvironment exampleBenchmarks ["benchmark_runner", "Q9"] Process.initial =
      (1, print_error_message .BenchmarkNotFound Process.initial) :=
  ⟨by decide,
    ((run_benchmarks_errors exampleEnvironment exampleBenchmarks
      { name_pattern := "Q9", info := false } Process.initial).2.2.2.2
      ["benchmark_runner", "Q9"] Process.initial (by decide)).1 (by decide)⟩

/-- C12: with a non-empty name pattern, `run_benchmarks` acts on the registered
benchmarks whose whole name matches it, each once and in registration order.
Without `--info` the final state is that of `RunBenchmark` applied to them one
after the other, so exactly their names are added to `ran` and nothing is
written to `stdout`; with `--info` their infos are added to `stdout`, one line
each, and nothing else changes, so none is run. With an empty pattern and no
`--info` every registered benchmark is run in registration order. -/
theorem run_benchmarks_selection (env : Environment) (benchmarks : List Benchmark)
    (configuration : BenchmarkConfiguration) (state : Process) :
    (configuration.name_pattern ≠ "" → configuration.info = false →
      (run_benchmarks env benchmarks configuration state).2 =
        (benchmarks.filter (fun b => env.FullMatch b.name configuration.name_pattern)).foldl
          (fun st b => BenchmarkRunner.RunBenchmark env b st) state ∧
      (run_benchmarks env benchmarks configuration state).2.ran =
        state.ran ++ (benchmarks.filter
          (fun b => env.FullMatch b.name configuration.name_pattern)).map (fun b => b.name) ∧
      (run_benchmarks env benchmarks configuration state).2.stdout = state.stdout) ∧
    (configuration.name_pattern ≠ "" → configuration.info = true →
      (run_benchmarks env benchmarks configuration state).2 =
        { state with
          stdout := state.stdout ++ (benchmarks.filter
            (fun b => env.FullMatch b.name configuration.name_pattern)).map
              (fun b => b.info) }) ∧
    (configuration.name_pattern = "" → configuration.info = false →
      (run_benchmarks env benchmarks configuration state).2 =
        benchmarks.foldl (fun st b => BenchmarkRunner.RunBenchmark env b st)
          { state with stderr := state.stderr ++ ["Starting benchmark run."] } ∧
      (run_benchmarks env benchmarks configuration state).2.ran =
        state.ran ++ benchmarks.map (fun b => b.name)) := by
  have hnil := matching_indices_eq_nil_iff env benchmarks configuration.name_pattern
  have hfilter_nil : matching_indices env benchmarks configuration.name_pattern = [] →
      benchmarks.filter (fun b => env.FullMatch b.name configuration.name_pattern) = [] := by
    intro hm
    rw [List.filter_eq_nil_iff]
    intro b hb
    simp [hnil.mp hm b hb]
  refine ⟨?_, ?_, ?_⟩
  · intro hp hi
    have hstate : (run_benchmarks env benchmarks configuration state).2 =
        (benchmarks.filter (fun b => env.FullMatch b.name configuration.name_pattern)).foldl
          (fun st b => BenchmarkRunner.RunBenchmark env b st) state := by
      by_cases hm : matching_indices env benchmarks configuration.name_pattern = []
      · simp [run_benchmarks, hp, hm, hfilter_nil hm]
      · simp only [run_benchmarks, hp, ne_eq, not_false_eq_true, if_true, hm, if_false, hi,
          Bool.false_eq_true]
        refine Eq.trans ?_ (foldl_indices_eq_foldl_filter
          (fun b => env.FullMatch b.name configuration.name_pattern)
          (fun st b => BenchmarkRunner.RunBenchmark env b st) benchmarks state)
        unfold matching_indices
        congr 1
        · funext st index
          cases benchmarks[index]? <;> rfl
        · congr 1
          funext index
          cases benchmarks[index]? <;> rfl
    have hframe := BenchmarkRunner.RunBenchmark_foldl_frame env
      (benchmarks.filter (fun b => env.FullMatch b.name configuration.name_pattern)) state
    rw [← hstate] at hframe
    exact ⟨hstate, hframe.1, hframe.2⟩
  · intro hp hi
    have hfold : ∀ (l : List Benchmark) (s : Process),
        l.foldl (fun st b => { st with stdout := st.stdout ++ [b.info] }) s =
          { s with stdout := s.stdout ++ l.map (fun b => b.info) } := by
      intro l
      induction l with
      | nil => intro s; simp
      | cons b rest ih => intro s; simp [ih]
    by_cases hm : matching_indices env benchmarks configuration.name_pattern = []
    · simp [run_benchmarks, hp, hm, hfilter_nil hm]
    · simp only [run_benchmarks, hp, ne_eq, not_false_eq_true, if_true, hm, if_false, hi]
      rw [← hfold]
      refine Eq.trans ?_ (foldl_indices_eq_foldl_filter
        (fun b => env.FullMatch b.name configuration.name_pattern)
        (fun st b => { st with stdout := st.stdout ++ [b.info] }) benchmarks state)
      unfold matching_indices
      congr 1
      · funext st index
        cases benchmarks[index]? <;> rfl
      · congr 1
        funext index
        cases benchmarks[index]? <;> rfl
  · intro hp hi
    have hstate : (run_benchmarks env benchmarks configuration state).2 =
        benchmarks.foldl (fun st b => BenchmarkRunner.RunBenchmark env b st)
          { state with stderr := state.stderr ++ ["Starting benchmark run."] } := by
      simp [run_benchmarks, hp, hi, BenchmarkRunner.RunBenchmarks]
    have hframe := BenchmarkRunner.RunBenchmark_foldl_frame env benchmarks
      { state with stderr := state.stderr ++ ["Starting benchmark run."] }
    rw [← hstate] at hframe
    exact ⟨hstate, hframe.1⟩

/-- C12 at the pattern `Q2`: of `Q1` and `Q2` only `Q2` is run, and with
`--info` only its info is printed and nothing is run. -/
theorem run_benchmarks_selection_witness :
    (run_benchmarks exampleEnvironment exampleBenchmarks
      { name_pattern := "Q2", info := false } Process.initial).2.ran = ["Q2"] ∧
    (run_benchmarks exampleEnvironment exampleBenchmarks
      { name_pattern := "Q2", info := true } Process.initial).2 =
      { Process.initial with stdout := ["second query"] } :=
  ⟨((run_benchmarks_selection exampleEnvironment exampleBenchmarks
      { name_pattern := "Q2", info := false } Process.initial).1 (by decide) rfl).2.1,
    (run_benchmarks_selection exampleEnvironment exampleBenchmarks
      { name_pattern := "Q2", info := true } Process.initial).2.1 (by decide) rfl⟩

/-- C13, amended: an argument list whose first argument is `--list` prints, one
per line and in registration order, the name of every registered benchmark
whose name does not start with `sqlite_`, runs nothing, writes nothing else
and ends with code 0; if no registered name starts with `sqlite_`, these are
the names of all registered benchmarks. -/
theorem list_prints_benchmark_names (env : Environment) (benchmarks : List Benchmark)
    (program : String) (rest : List String) (state : Process) :
    main env benchmarks (program :: "--list" :: rest) state =
      (0, { state with
        stdout := state.stdout ++
          (benchmarks.filter (fun b => !env.StartsWith b.name "sqlite_")).map
            (fun b => b.name) }) ∧
    ((∀ b ∈ benchmarks, env.StartsWith b.name "sqlite_" = false) →
      main env benchmarks (program :: "--list" :: rest) state =
        (0, { state with stdout := state.stdout ++ benchmarks.map (fun b => b.name) })) := by
  have hmain : main env benchmarks (program :: "--list" :: rest) state =
      (0, { state with
        stdout := state.stdout ++
          (benchmarks.filter (fun b => !env.StartsWith b.name "sqlite_")).map
            (fun b => b.name) }) := by
    simp [main, parse_arguments, parse_arguments_loop]
  refine ⟨hmain, ?_⟩
  intro hnone
  have hall : benchmarks.filter (fun b => !env.StartsWith b.name "sqlite_") = benchmarks := by
    rw [List.filter_eq_self]
    intro b hb
    simp [hnone b hb]
  rw [hmain, hall]

/-- C13 at `benchmark_runner --list` with the benchmarks `Q1` and `Q2`: both
names are printed and the process ends with code 0. -/
theorem list_prints_benchmark_names_witness :
    main exampleEnvironment exampleBenchmarks ["benchmark_runner", "--list"] Process.initial =
      (0, { Process.initial with stdout := ["Q1", "Q2"] }) :=
  (list_prints_benchmark_names exampleEnvironment exampleBenchmarks "benchmark_runner" []
    Process.initial).2 (by decide)

/-- C13 as stated fails at `benchmark_runner --list` with the registered
benchmarks `Q1` and `sqlite_select1`: only `Q1` is printed. -/
theorem list_prints_benchmark_names_counterexample :
    exampleSqliteBenchmarks.map (fun b => b.name) = ["Q1", "sqlite_select1"] ∧
    main exampleEnvironment exampleSqliteBenchmarks ["benchmark_runner", "--list"]
        Process.initial =
      (0, { stdout := ["Q1"], stderr := [], out_file := none, log_file := none, ran := [] }) := by
  decide

/-- A copy equals its original, for expressions and for vectors of children,
provided a function is not `!=` itself and an expression of another class is
equal to its copy. -/
theorem Expression.Copy_Equals_all (methods : ExpressionMethods)
    (hbase : ∀ e, methods.base_Equals (Expression.Copy methods e) e = true)
    (hne : ∀ f, methods.function_ne f f = false)
    (hother : ∀ b id, methods.other_Equals (methods.other_Copy id) (.other b id) = true) :
    (∀ e : Expression, Expression.Equals methods (Expression.Copy methods e) e = true) ∧
    (∀ es : List Expression,
      Expression.EqualsChildren methods (Expression.CopyChildren methods es) es = true ∧
      (Expression.CopyChildren methods es).length = es.length) := by
  have key := @Expression.rec
    (fun e => Expression.Equals methods (Expression.Copy methods e) e = true)
    (fun es =>
      Expression.EqualsChildren methods (Expression.CopyChildren methods es) es = true ∧
      (Expression.CopyChildren methods es).length = es.length)
  have keys := @Expression.rec_1
    (fun e => Expression.Equals methods (Expression.Copy methods e) e = true)
    (fun es =>
      Expression.EqualsChildren methods (Expression.CopyChildren methods es) es = true ∧
      (Expression.CopyChildren methods es).length = es.length)
  suffices h : _ ∧ _ ∧ _ ∧ _ from
    ⟨fun e => key h.1 h.2.1 h.2.2.1 h.2.2.2 e, fun es => keys h.1 h.2.1 h.2.2.1 h.2.2.2 es⟩
  refine ⟨?_, ?_, ?_, ?_⟩
  · intro return_type function is_operator children ih
    have hb := hbase (.bound_function return_type function is_operator children)
    simp only [Expression.Copy] at hb
    simp only [Expression.Copy, Expression.Equals, hb, Bool.not_true, hne, Bool.false_eq_true,
      if_false, ih.2, ne_eq, not_true_eq_false, ih.1]
  · intro b id
    simp only [Expression.Copy, Expression.Equals, hother]
  · exact ⟨by simp [Expression.CopyChildren, Expression.EqualsChildren], rfl⟩
  · intro c cs ihc ihcs
    constructor
    · simp only [Expression.CopyChildren, Expression.EqualsChildren, ihc, Bool.not_true,
        Bool.false_eq_true, if_false, ihcs.1]
    · simp only [Expression.CopyChildren, List.length_cons, ihcs.2]

/-- The copy of a vector of children holds, at each position, the copy of the
child at that position. -/
theorem Expression.CopyChildren_getElem (methods : ExpressionMethods)
    (es : List Expression) :
    ∀ (k : Nat) (c : Expression), es[k]? = some c →
      (Expression.CopyChildren methods es)[k]? = some (Expression.Copy methods c) := by
  induction es with
  | nil =>
    intro k c h
    simp at h
  | cons e rest ih =>
    intro k c h
    cases k with
    | zero =>
      simp only [List.getElem?_cons_zero, Option.some.injEq] at h
      subst h
      simp [Expression.CopyChildren]
    | succ k =>
      simp only [List.getElem?_cons_succ] at h
      simp only [Expression.CopyChildren, List.getElem?_cons_succ]
      exact ih k c h

/-- C17: the copy of a bound function expression has the same return type,
function and `is_operator` flag and the same number of children, each child of
the copy being the copy of the child at its position and equal to it, and
`copy.Equals(e)` holds. The expression is only read. This needs that
`BaseExpression::Equals` holds between a copy and its original, that a function
is not `!=` itself and that an expression of another class equals its copy. -/
theorem BoundFunctionExpression.Copy_Equals (methods : ExpressionMethods)
    (hbase : ∀ e, methods.base_Equals (Expression.Copy methods e) e = true)
    (hne : ∀ f, methods.function_ne f f = false)
    (hother : ∀ b id, methods.other_Equals (methods.other_Copy id) (.other b id) = true)
    (return_type : TypeId) (function : ScalarFunction) (is_operator : Bool)
    (children : List Expression) :
    Expression.Copy methods (.bound_function return_type function is_operator children) =
      .bound_function return_type function is_operator
        (Expression.CopyChildren methods children) ∧
    (Expression.CopyChildren methods children).length = children.length ∧
    (∀ (k : Nat) (c : Expression), children[k]? = some c →
      (Expression.CopyChildren methods children)[k]? = some (Expression.Copy methods c) ∧
      Expression.Equals methods (Expression.Copy methods c) c = true) ∧
    Expression.Equals methods
      (Expression.Copy methods (.bound_function return_type function is_operator children))
      (.bound_function return_type function is_operator children) = true := by
  have hall := Expression.Copy_Equals_all methods hbase hne hother
  refine ⟨by simp only [Expression.Copy], (hall.2 children).2, ?_, hall.1 _⟩
  intro k c hk
  exact ⟨Expression.CopyChildren_getElem methods children k c hk, hall.1 c⟩

/-- C17 at the tree `1 + (random() + 2)`: its copy equals it. -/
theorem BoundFunctionExpression.Copy_Equals_witness :
    Expression.Equals exampleMethods (Expression.Copy exampleMethods exampleRandomTree)
      exampleRandomTree = true :=
  (BoundFunctionExpression.Copy_Equals exampleMethods (fun e => by cases e <;> rfl)
    (fun f => by simp [exampleMethods])
    (fun b id => by simp [exampleMethods]) TypeId.DOUBLE exampleAdd true
    [.other true 1,
     .bound_function TypeId.DOUBLE exampleAdd true
       [.bound_function TypeId.DOUBLE Random.RegisterFunction false [], .other true 2]]).2.2.2

/-- An expression of another class is written by the methods of its class. -/
theorem ParsedExpression.Serialize_other {Item : Type} (methods : SerializationMethods Item)
    (e : ParsedExpression) (h : e.is_cast = false) :
    ParsedExpression.Serialize methods e = methods.other_Serialize e := by
  cases e <;> first | exact Bool.noConfusion h | rfl

/-- An expression of another class is compared by the methods of its class. -/
theorem ParsedExpression.Equals_other {Item : Type} (methods : SerializationMethods Item)
    (e other_ : ParsedExpression) (h : e.is_cast = false) :
    ParsedExpression.Equals methods e other_ = methods.other_Equals e other_ := by
  cases e <;> first
    | exact Bool.noConfusion h
    | (simp only [ParsedExpression.Equals])

/-- With fuel above the number of nested casts, deserialising what an
expression wrote gives the expression back and leaves what followed it. -/
theorem ParsedExpression.Deserialize_round_trip {Item : Type}
    (methods : SerializationMethods Item)
    (hbase : ∀ e rest, e.is_cast = true →
      methods.read_class (methods.base_Serialize e ++ rest) = some (methods.cast_class, rest))
    (htype : ∀ type rest,
      methods.type_Deserialize (methods.type_Serialize type ++ rest) = some (type, rest))
    (hother : ∀ e rest, e.is_cast = false →
      ∃ expression_class source, expression_class ≠ methods.cast_class ∧
        methods.read_class (methods.other_Serialize e ++ rest) = some (expression_class, source) ∧
        methods.other_Deserialize expression_class source = some (e, rest)) :
    ∀ (fuel : Nat) (e : ParsedExpression) (rest : List Item), e.cast_depth < fuel →
      ParsedExpression.Deserialize methods fuel (ParsedExpression.Serialize methods e ++ rest) =
        some (e, rest) := by
  intro fuel
  induction fuel with
  | zero => intro e rest h; exact absurd h (Nat.not_lt_zero _)
  | succ fuel ih =>
    intro e rest h
    by_cases hc : e.is_cast = true
    · cases e with
      | cast target child =>
        have hd : child.cast_depth < fuel := by
          simp only [ParsedExpression.cast_depth] at h; omega
        simp only [ParsedExpression.Serialize, ParsedExpression.Deserialize, List.append_assoc]
        rw [hbase (.cast target child) _ rfl]
        simp only [if_true, CastExpression.Deserialize]
        rw [ih child _ hd]
        simp only [htype]
      | constant _ => exact absurd hc (by simp [ParsedExpression.is_cast])
      | column _ => exact absurd hc (by simp [ParsedExpression.is_cast])
      | parameter _ => exact absurd hc (by simp [ParsedExpression.is_cast])
      | comparison _ _ => exact absurd hc (by simp [ParsedExpression.is_cast])
      | arithmetic _ _ => exact absurd hc (by simp [ParsedExpression.is_cast])
      | in_list _ _ => exact absurd hc (by simp [ParsedExpression.is_cast])
      | subquery _ => exact absurd hc (by simp [ParsedExpression.is_cast])
    · have hc2 : e.is_cast = false := by simpa using hc
      obtain ⟨expression_class, source, hne, hread, hdes⟩ := hother e rest hc2
      rw [ParsedExpression.Serialize_other methods e hc2]
      simp only [ParsedExpression.Deserialize, hread, if_neg hne, hdes]

/-- Every expression equals itself when `BaseExpression::Equals` holds between
a cast and itself and the expressions of other classes equal themselves. -/
theorem ParsedExpression.Equals_refl {Item : Type} (methods : SerializationMethods Item)
    (hbase_Equals : ∀ e, e.is_cast = true → methods.base_Equals e e = true)
    (hequals : ∀ e, e.is_cast = false → methods.other_Equals e e = true) :
    ∀ (n : Nat) (e : ParsedExpression), e.cast_depth ≤ n →
      ParsedExpression.Equals methods e e = true := by
  intro n
  induction n with
  | zero =>
    intro e h
    have hc : e.is_cast = false := by
      cases e <;> first | rfl | (simp only [ParsedExpression.cast_depth] at h; omega)
    rw [ParsedExpression.Equals_other methods e e hc]
    exact hequals e hc
  | succ n ih =>
    intro e h
    by_cases hc : e.is_cast = true
    · cases e with
      | cast target child =>
        have hd : child.cast_depth ≤ n := by
          simp only [ParsedExpression.cast_depth] at h; omega
        simp [ParsedExpression.Equals, ih child hd, hbase_Equals (.cast target child) rfl]
      | constant _ => exact absurd hc (by simp [ParsedExpression.is_cast])
      | column _ => exact absurd hc (by simp [ParsedExpression.is_cast])
      | parameter _ => exact absurd hc (by simp [ParsedExpression.is_cast])
      | comparison _ _ => exact absurd hc (by simp [ParsedExpression.is_cast])
      | arithmetic _ _ => exact absurd hc (by simp [ParsedExpression.is_cast])
      | in_list _ _ => exact absurd hc (by simp [ParsedExpression.is_cast])
      | subquery _ => exact absurd hc (by simp [ParsedExpression.is_cast])
    · have hc2 : e.is_cast = false := by simpa using hc
      rw [ParsedExpression.Equals_other methods e e hc2]
      exact hequals e hc2

/-- C16: Serialize and Deserialize of a cast expression are inverse. Let the
base-class part written for a cast be read back as the class CAST, let
`SQLType::Deserialize` read back what `SQLType::Serialize` wrote, let
`BaseExpression::Equals` hold between a cast and itself, and let the
expressions of other classes be read back as written and equal themselves.
Then for every cast expression `CAST(child AS target)` and every fuel above
its number of nested casts: `Serialize` writes the base-class part, then the
child, then the target type; `CastExpression::Deserialize` reads the child
first and the target type second from what follows the base-class part; and
`ParsedExpression::Deserialize` of what `Serialize` wrote returns a cast
expression with the same target type and an equal child that `Equals` the
original, leaving what followed unread. -/
theorem CastExpression.Deserialize_Serialize {Item : Type}
    (methods : SerializationMethods Item)
    (hbase : ∀ e rest, e.is_cast = true →
      methods.read_class (methods.base_Serialize e ++ rest) = some (methods.cast_class, rest))
    (htype : ∀ type rest,
      methods.type_Deserialize (methods.type_Serialize type ++ rest) = some (type, rest))
    (hother : ∀ e rest, e.is_cast = false →
      ∃ expression_class source, expression_class ≠ methods.cast_class ∧
        methods.read_class (methods.other_Serialize e ++ rest) = some (expression_class, source) ∧
        methods.other_Deserialize expression_class source = some (e, rest))
    (hbase_Equals : ∀ e, e.is_cast = true → methods.base_Equals e e = true)
    (hequals : ∀ e, e.is_cast = false → methods.other_Equals e e = true)
    (target : SQLType) (child : ParsedExpression) (rest : List Item) (fuel : Nat)
    (hfuel : (ParsedExpression.cast target child).cast_depth < fuel) :
    ParsedExpression.Serialize methods (.cast target child) =
        methods.base_Serialize (.cast target child) ++
          ParsedExpression.Serialize methods child ++ methods.type_Serialize target ∧
      ParsedExpression.Deserialize methods (fuel - 1)
          (ParsedExpression.Serialize methods child ++ (methods.type_Serialize target ++ rest)) =
        some (child, methods.type_Serialize target ++ rest) ∧
      methods.type_Deserialize (methods.type_Serialize target ++ rest) = some (target, rest) ∧
      CastExpression.Deserialize methods (ParsedExpression.Deserialize methods (fuel - 1))
          (ParsedExpression.Serialize methods child ++ (methods.type_Serialize target ++ rest)) =
        some (.cast target child, rest) ∧
      ∃ cast_type read_child,
        ParsedExpression.Deserialize methods fuel
            (ParsedExpression.Serialize methods (.cast target child) ++ rest) =
          some (.cast cast_type read_child, rest) ∧
        cast_type = target ∧
        ParsedExpression.Equals methods read_child child = true ∧
        ParsedExpression.Equals methods (.cast cast_type read_child) (.cast target child) = true := by
  have hd : child.cast_depth < fuel - 1 := by
    simp only [ParsedExpression.cast_depth] at hfuel; omega
  have hchild := ParsedExpression.Deserialize_round_trip methods hbase htype hother
    (fuel - 1) child (methods.type_Serialize target ++ rest) hd
  refine ⟨rfl, hchild, htype target rest, ?_, target, child,
    ParsedExpression.Deserialize_round_trip methods hbase htype hother fuel _ rest hfuel, rfl,
    ParsedExpression.Equals_refl methods hbase_Equals hequals _ child (Nat.le_refl _),
    ParsedExpression.Equals_refl methods hbase_Equals hequals _ (.cast target child)
      (Nat.le_refl _)⟩
  simp only [CastExpression.Deserialize, hchild, htype]

/-- Witness for C16 with the example methods:
`CAST(CAST($1 AS INTEGER) AS BIGINT)` followed by one more item. -/
theorem CastExpression.Deserialize_Serialize_witness :
    ParsedExpression.Serialize exampleSerialization
        (.cast SQLType.BIGINT (.cast SQLType.INTEGER (.parameter 1))) =
      [.class_tag 1, .class_tag 1, .class_tag 0, .expression (.parameter 1),
        .sql_type SQLType.INTEGER, .sql_type SQLType.BIGINT] ∧
    (ParsedExpression.Serialize exampleSerialization
          (.cast SQLType.BIGINT (.cast SQLType.INTEGER (.parameter 1))) =
        exampleSerialization.base_Serialize
            (.cast SQLType.BIGINT (.cast SQLType.INTEGER (.parameter 1))) ++
          ParsedExpression.Serialize exampleSerialization
            (.cast SQLType.INTEGER (.parameter 1)) ++
          exampleSerialization.type_Serialize SQLType.BIGINT ∧
      ParsedExpression.Deserialize exampleSerialization (3 - 1)
          (ParsedExpression.Serialize exampleSerialization
              (.cast SQLType.INTEGER (.parameter 1)) ++
            (exampleSerialization.type_Serialize SQLType.BIGINT ++ [.class_tag 7])) =
        some (.cast SQLType.INTEGER (.parameter 1),
          exampleSerialization.type_Serialize SQLType.BIGINT ++ [.class_tag 7]) ∧
      exampleSerialization.type_Deserialize
          (exampleSerialization.type_Serialize SQLType.BIGINT ++ [.class_tag 7]) =
        some (SQLType.BIGINT, [.class_tag 7]) ∧
      CastExpression.Deserialize exampleSerialization
          (ParsedExpression.Deserialize exampleSerialization (3 - 1))
          (ParsedExpression.Serialize exampleSerialization
              (.cast SQLType.INTEGER (.parameter 1)) ++
            (exampleSerialization.type_Serialize SQLType.BIGINT ++ [.class_tag 7])) =
        some (.cast SQLType.BIGINT (.cast SQLType.INTEGER (.parameter 1)), [.class_tag 7]) ∧
      ∃ cast_type read_child,
        ParsedExpression.Deserialize exampleSerialization 3
            (ParsedExpression.Serialize exampleSerialization
                (.cast SQLType.BIGINT (.cast SQLType.INTEGER (.parameter 1))) ++
              [.class_tag 7]) =
          some (.cast cast_type read_child, [.class_tag 7]) ∧
        cast_type = SQLType.BIGINT ∧
        ParsedExpression.Equals exampleSerialization read_child
            (.cast SQLType.INTEGER (.parameter 1)) = true ∧
        ParsedExpression.Equals exampleSerialization (.cast cast_type read_child)
            (.cast SQLType.BIGINT (.cast SQLType.INTEGER (.parameter 1))) = true) :=
  ⟨rfl,
    CastExpression.Deserialize_Serialize exampleSerialization
      (fun _ _ _ => rfl) (fun _ _ => rfl)
      (fun e rest _ => ⟨0, .expression e :: rest, by decide, rfl, rfl⟩)
      (fun _ _ => by simp [exampleSerialization])
      (fun _ _ => by simp [exampleSerialization])
      SQLType.BIGINT (.cast SQLType.INTEGER (.parameter 1)) [.class_tag 7] 3 (by decide)⟩

end DuckDB
